import Mathlib

/-!
Verification of the metadata-resolution, license-validation, attribution-rendering
and BibTeX parse/generate/write logic of the `sphinx_metadata_figure` extension
(file `src/sphinx_metadata_figure/__init__.py`).

The Python code is shallowly embedded: every definition below mirrors a named
Python function or code block of that file; strings are Lean `String`s, the
regex-based scanners are translated into explicit character-list scanners with
the same matching semantics, and raised exceptions become `Except` errors.
-/

/-! ### Python semantics helpers -/

/-- Python truthiness of an optional string: `None` and the empty string are falsy. -/
def truthy : Option String → Bool
  | none => false
  | some s => !(s == "")

/-- Python `a or b` over optional strings: `b` when `a` is falsy, else `a`. -/
def pyOr (a b : Option String) : Option String :=
  if truthy a then a else b

/-- Specification-side helper: the first truthy (non-empty, non-None) value of a
list of layered option values, or `none` when no layer holds one. -/
def firstTruthy : List (Option String) → Option String
  | [] => none
  | v :: rest => if truthy v then v else firstTruthy rest

/-- Python `\s` on ASCII input (the whitespace class used by `str.split`,
`str.strip` and the `re` patterns in the source). -/
def isSpaceChar (c : Char) : Bool :=
  c == ' ' || c == '\t' || c == '\n' || c == '\r' || c == '\x0b' || c == '\x0c'

/-- Python `\w` on ASCII input: letters, digits and underscore. -/
def isWordChar (c : Char) : Bool :=
  c.isAlphanum || c == '_'

/-- Python `str.startswith` on character lists. -/
def startsWithL : List Char → List Char → Bool
  | [], _ => true
  | _ :: _, [] => false
  | p :: ps, s :: ss => p == s && startsWithL ps ss

/-- Python `str.lower` on a character (ASCII case fold, as applied by
`re.IGNORECASE` and `str.lower()` in the source). -/
def lowerChar (c : Char) : Char := c.toLower

/-- Python `str.lower` on a character list. -/
def lowerL (l : List Char) : List Char := l.map lowerChar

/-! ### License registry (`VALID_LICENSES`, `LICENSE_URLS`) -/

/-- The list of recognized licenses (`VALID_LICENSES` in the source). -/
def VALID_LICENSES : List String :=
  [ "CC0", "CC-BY", "CC-BY-SA", "CC-BY-NC", "CC-BY-NC-SA", "CC-BY-ND",
    "CC-BY-NC-ND",
    "CC BY", "CC BY-SA", "CC BY-NC", "CC BY-NC-SA", "CC BY-ND", "CC BY-NC-ND",
    "CC BY 4.0", "CC BY-SA 4.0", "CC BY-NC 4.0", "CC BY-NC-SA 4.0",
    "CC BY-ND 4.0", "CC BY-NC-ND 4.0",
    "CC BY 3.0", "CC BY-SA 3.0", "CC BY-NC 3.0", "CC BY-NC-SA 3.0",
    "CC BY-ND 3.0", "CC BY-NC-ND 3.0",
    "CC BY 2.5", "CC BY-SA 2.5", "CC BY-NC 2.5", "CC BY-NC-SA 2.5",
    "CC BY-ND 2.5", "CC BY-NC-ND 2.5",
    "CC BY 2.0", "CC BY-SA 2.0", "CC BY-NC 2.0", "CC BY-NC-SA 2.0",
    "CC BY-ND 2.0", "CC BY-NC-ND 2.0",
    "CC BY 1.0", "CC BY-SA 1.0", "CC BY-NC 1.0", "CC BY-NC-SA 1.0",
    "CC BY-ND 1.0", "CC BY-NC-ND 1.0",
    "Public Domain", "MIT", "Apache-2.0", "GPL-3.0", "BSD-3-Clause",
    "Proprietary", "All Rights Reserved",
    "Pixabay License", "Unsplash License", "Pexels License",
    "Vecteezy Free License" ]

/-- The canonical-URL table (`LICENSE_URLS` in the source), in insertion order. -/
def LICENSE_URLS : List (String × String) :=
  [ ("CC0", "https://creativecommons.org/publicdomain/zero/1.0/"),
    ("CC-BY", "https://creativecommons.org/licenses/by/4.0/"),
    ("CC-BY-SA", "https://creativecommons.org/licenses/by-sa/4.0/"),
    ("CC-BY-NC", "https://creativecommons.org/licenses/by-nc/4.0/"),
    ("CC-BY-NC-SA", "https://creativecommons.org/licenses/by-nc-sa/4.0/"),
    ("CC-BY-ND", "https://creativecommons.org/licenses/by-nd/4.0/"),
    ("CC-BY-NC-ND", "https://creativecommons.org/licenses/by-nc-nd/4.0/"),
    ("CC BY", "https://creativecommons.org/licenses/by/4.0/"),
    ("CC BY-SA", "https://creativecommons.org/licenses/by-sa/4.0/"),
    ("CC BY-NC", "https://creativecommons.org/licenses/by-nc/4.0/"),
    ("CC BY-NC-SA", "https://creativecommons.org/licenses/by-nc-sa/4.0/"),
    ("CC BY-ND", "https://creativecommons.org/licenses/by-nd/4.0/"),
    ("CC BY-NC-ND", "https://creativecommons.org/licenses/by-nc-nd/4.0/"),
    ("CC BY 4.0", "https://creativecommons.org/licenses/by/4.0/"),
    ("CC BY-SA 4.0", "https://creativecommons.org/licenses/by-sa/4.0/"),
    ("CC BY-NC 4.0", "https://creativecommons.org/licenses/by-nc/4.0/"),
    ("CC BY-NC-SA 4.0", "https://creativecommons.org/licenses/by-nc-sa/4.0/"),
    ("CC BY-ND 4.0", "https://creativecommons.org/licenses/by-nd/4.0/"),
    ("CC BY-NC-ND 4.0", "https://creativecommons.org/licenses/by-nc-nd/4.0/"),
    ("CC BY 3.0", "https://creativecommons.org/licenses/by/3.0/"),
    ("CC BY-SA 3.0", "https://creativecommons.org/licenses/by-sa/3.0/"),
    ("CC BY-NC 3.0", "https://creativecommons.org/licenses/by-nc/3.0/"),
    ("CC BY-NC-SA 3.0", "https://creativecommons.org/licenses/by-nc-sa/3.0/"),
    ("CC BY-ND 3.0", "https://creativecommons.org/licenses/by-nd/3.0/"),
    ("CC BY-NC-ND 3.0", "https://creativecommons.org/licenses/by-nc-nd/3.0/"),
    ("CC BY 2.5", "https://creativecommons.org/licenses/by/2.5/"),
    ("CC BY-SA 2.5", "https://creativecommons.org/licenses/by-sa/2.5/"),
    ("CC BY-NC 2.5", "https://creativecommons.org/licenses/by-nc/2.5/"),
    ("CC BY-NC-SA 2.5", "https://creativecommons.org/licenses/by-nc-sa/2.5/"),
    ("CC BY-ND 2.5", "https://creativecommons.org/licenses/by-nd/2.5/"),
    ("CC BY-NC-ND 2.5", "https://creativecommons.org/licenses/by-nc-nd/2.5/"),
    ("CC BY 2.0", "https://creativecommons.org/licenses/by/2.0/"),
    ("CC BY-SA 2.0", "https://creativecommons.org/licenses/by-sa/2.0/"),
    ("CC BY-NC 2.0", "https://creativecommons.org/licenses/by-nc/2.0/"),
    ("CC BY-NC-SA 2.0", "https://creativecommons.org/licenses/by-nc-sa/2.0/"),
    ("CC BY-ND 2.0", "https://creativecommons.org/licenses/by-nd/2.0/"),
    ("CC BY-NC-ND 2.0", "https://creativecommons.org/licenses/by-nc-nd/2.0/"),
    ("CC BY 1.0", "https://creativecommons.org/licenses/by/1.0/"),
    ("CC BY-SA 1.0", "https://creativecommons.org/licenses/by-sa/1.0/"),
    ("CC BY-NC 1.0", "https://creativecommons.org/licenses/by-nc/1.0/"),
    ("CC BY-NC-SA 1.0", "https://creativecommons.org/licenses/by-nc-sa/1.0/"),
    ("CC BY-ND 1.0", "https://creativecommons.org/licenses/by-nd/1.0/"),
    ("CC BY-NC-ND 1.0", "https://creativecommons.org/licenses/by-nc-nd/1.0/"),
    ("Public Domain", "https://creativecommons.org/publicdomain/mark/1.0/"),
    ("MIT", "https://opensource.org/licenses/MIT"),
    ("Apache-2.0", "https://www.apache.org/licenses/LICENSE-2.0"),
    ("GPL-3.0", "https://www.gnu.org/licenses/gpl-3.0.en.html"),
    ("GPL-2.0", "https://www.gnu.org/licenses/old-licenses/gpl-2.0.en.html"),
    ("LGPL-2.1", "https://www.gnu.org/licenses/lgpl-2.1.en.html"),
    ("LGPL-3.0", "https://www.gnu.org/licenses/lgpl-3.0.en.html"),
    ("AGPL-3.0", "https://www.gnu.org/licenses/agpl-3.0.en.html"),
    ("BSD-3-Clause", "https://opensource.org/licenses/BSD-3-Clause"),
    ("BSD-2-Clause", "https://opensource.org/licenses/BSD-2-Clause"),
    ("Pixabay License", "https://pixabay.com/service/terms/#license"),
    ("Unsplash License", "https://unsplash.com/license"),
    ("Pexels License", "https://www.pexels.com/license/"),
    ("Vecteezy Free License", "https://www.vecteezy.com/licensing-agreement") ]

/-- The key set of the canonical-URL table. -/
def licenseURLKeys : List String := LICENSE_URLS.map Prod.fst

/-- Dictionary lookup `LICENSE_URLS[key]` (`None` when the key is absent). -/
def licenseURLOf (key : String) : Option String :=
  (LICENSE_URLS.find? (fun p => p.1 == key)).map Prod.snd

/-- `untranslate_license` in the source: convert a (possibly localized) license
label back to its canonical English key via a reverse map loaded from
`translations/untranslate.json`, falling back to the identity when the label
is not in the map.  The JSON map content itself is not part of the sources,
so the map is a parameter here; the lookup-or-identity behavior is the
source's `.get(license_value, license_value)`. -/
def untranslate_license (umap : List (String × String)) (licenseValue : String) : String :=
  match umap.find? (fun p => p.1 == licenseValue) with
  | some p => p.2
  | none => licenseValue

/-! ### Date parsing (`datetime.strptime(value, "%Y-%m-%d")`) -/

/-- Python `str.split('-')` on a character list (keeps empty pieces). -/
def splitDashAux : List Char → List Char → List (List Char)
  | [], acc => [acc.reverse]
  | c :: rest, acc =>
    if c == '-' then acc.reverse :: splitDashAux rest []
    else splitDashAux rest (c :: acc)

/-- Python `str.split('-')`. -/
def splitDash (l : List Char) : List (List Char) := splitDashAux l []

/-- Numeric value of a digit string. -/
def natOfDigits (l : List Char) : Nat :=
  l.foldl (fun n c => n * 10 + (c.toNat - 48)) 0

/-- Gregorian leap-year rule used by `datetime`. -/
def isLeapYear (y : Nat) : Bool :=
  y % 4 == 0 && (y % 100 != 0 || y % 400 == 0)

/-- Days in a month, as validated by the `datetime` constructor. -/
def daysInMonth (y m : Nat) : Nat :=
  if m == 2 then (if isLeapYear y then 29 else 28)
  else if m == 4 || m == 6 || m == 9 || m == 11 then 30
  else 31

/-- CPython `_strptime` token for `%Y`: `(?P<Y>\d\d\d\d)` — exactly four
digits. -/
def yearToken : List Char → Option Nat
  | [a, b, c, d] =>
    if a.isDigit && b.isDigit && c.isDigit && d.isDigit then
      some (natOfDigits [a, b, c, d])
    else none
  | _ => none

/-- CPython `_strptime` token for `%m`: `(?P<m>1[0-2]|0[1-9]|[1-9])`, which
must end exactly at the following literal `-` (no alternative can stop inside
a digit run without the overall match failing). -/
def monthToken : List Char → Option Nat
  | ['1', c] => if '0' ≤ c && c ≤ '2' then some (10 + (c.toNat - 48)) else none
  | ['0', c] => if '1' ≤ c && c ≤ '9' then some (c.toNat - 48) else none
  | [c] => if '1' ≤ c && c ≤ '9' then some (c.toNat - 48) else none
  | _ => none

/-- CPython `_strptime` token for `%d`:
`(?P<d>3[01]|[12]\d|0[1-9]|[1-9]| [1-9])` — note the space-padded single-digit
form — which must consume the input up to its end (`unconverted data remains`
otherwise). -/
def dayToken : List Char → Option Nat
  | ['3', c] => if c == '0' || c == '1' then some (30 + (c.toNat - 48)) else none
  | [c1, c2] =>
    if (c1 == '1' || c1 == '2') && c2.isDigit then some (natOfDigits [c1, c2])
    else if c1 == '0' && '1' ≤ c2 && c2 ≤ '9' then some (c2.toNat - 48)
    else if c1 == ' ' && '1' ≤ c2 && c2 ≤ '9' then some (c2.toNat - 48)
    else none
  | [c] => if '1' ≤ c && c ≤ '9' then some (c.toNat - 48) else none
  | _ => none

/-- Model of `datetime.strptime(s, "%Y-%m-%d")`: `none` models a raised
`ValueError`.  The compiled format regex is `%Y` `-` `%m` `-` `%d` with the
CPython token patterns above, matched from the start and required to consume
the whole string; since no token can contain a `-`, the string must split on
`-` into exactly three token texts.  The `datetime` constructor then requires
year ≥ 1 (`MINYEAR`) and a day within the month's length (month 1..12 is
already guaranteed by the `%m` token). -/
def strptimeYMD (s : String) : Option (Nat × Nat × Nat) :=
  match splitDash s.data with
  | [a, b, c] =>
    match yearToken a, monthToken b, dayToken c with
    | some y, some m, some d =>
      if 1 ≤ y && 1 ≤ m && m ≤ 12 && 1 ≤ d && d ≤ daysInMonth y m then
        some (y, m, d)
      else none
    | _, _, _ => none
  | _ => none

/-! ### Metadata resolver (the per-field blocks of `MetadataFigure.run`) -/

/-- The `license` category settings (`METADATA_FIGURE_DEFAULTS_LICENSE` keys). -/
structure LicenseSettings where
  link_license : Bool := true
  strict_check : Bool := false
  summaries : Bool := false
  individual : Bool := false
  substitute_missing : Bool := false
  default_license : String := "CC BY"

/-- The `date` category settings. -/
structure DateSettings where
  substitute_missing : Bool := false
  default_date : String := "today"

/-- The `author` category settings. -/
structure AuthorSettings where
  substitute_missing : Bool := false
  default_author : String := "config"

/-- The `copyright` category settings. -/
structure CopyrightSettings where
  substitute_missing : Bool := false
  default_copyright : String := "authoryear"

/-- The `source` category settings. -/
structure SourceSettings where
  warn_missing : Bool := false

/-- License precedence chain plus substitution (`run`, the
`license_value = options or bib or page_defaults` block followed by
`substitute_missing`). -/
def licenseResolvedRaw (e b p : Option String) (ls : LicenseSettings) : Option String :=
  let v := pyOr (pyOr e b) p
  if !(truthy v) then
    (if ls.substitute_missing then some ls.default_license else v)
  else v

/-- The license value after the precedence chain, substitution and
untranslation (`if license_value: license_value = untranslate_license(...)`). -/
def licenseResolvedValue (umap : List (String × String)) (e b p : Option String)
    (ls : LicenseSettings) : Option String :=
  let v := licenseResolvedRaw e b p ls
  if truthy v then v.map (untranslate_license umap) else v

/-- The two distinct license problems reported by `run`. -/
inductive LicenseIssue where
  | missing
  | unrecognized (value : String)
deriving DecidableEq, Repr

/-- The license validation step of `run` (lines checking `license_value is None`
and `license_value not in VALID_LICENSES`): a hard `ValueError` in strict-check
mode, an individual warning in individual mode, silence otherwise; on the
non-error path the (possibly invalid) value is retained unchanged. -/
def licenseValidation (umap : List (String × String)) (e b p : Option String)
    (ls : LicenseSettings) : Except LicenseIssue (Option String × Option LicenseIssue) :=
  let v := licenseResolvedValue umap e b p ls
  match v with
  | none =>
    if ls.strict_check then .error .missing
    else .ok (none, if ls.individual then some .missing else none)
  | some s =>
    if VALID_LICENSES.contains s then .ok (some s, none)
    else if ls.strict_check then .error (.unrecognized s)
    else .ok (some s, if ls.individual then some (.unrecognized s) else none)

/-- Python `str.replace("CC-", "CC ")`: leftmost, non-overlapping. -/
def replaceCCDash : List Char → List Char
  | 'C' :: 'C' :: '-' :: rest => 'C' :: 'C' :: ' ' :: replaceCCDash rest
  | c :: rest => c :: replaceCCDash rest
  | [] => []

/-- Display normalization of a present license value (`run`: translate, expand a
leading `CC-` via `str.replace`, and append a ` 4.0` to `CC ` licenses without
a digit).  `tr` is the host framework's localization lookup. -/
def licenseDisplayValue (tr : String → String) (v : String) : String :=
  let t := tr v
  let t := if startsWithL "CC-".data t.data then String.mk (replaceCCDash t.data) else t
  if startsWithL "CC ".data t.data && !(t.data.any Char.isDigit) then t ++ " 4.0" else t

/-- The license value stored on the figure node (`figure_node["license"]`):
`run` applies the display normalization to `license_value` in place and then
stores that same variable when it is truthy. -/
def licenseStoredValue (tr : String → String) (umap : List (String × String))
    (e b p : Option String) (ls : LicenseSettings) : Option String :=
  let v := licenseResolvedValue umap e b p ls
  if truthy v then v.map (licenseDisplayValue tr) else none

/-- Date precedence chain plus substitution (`run`). -/
def dateResolvedRaw (e b p : Option String) (ds : DateSettings) : Option String :=
  let v := pyOr (pyOr e b) p
  if !(truthy v) then
    (if ds.substitute_missing then some ds.default_date else v)
  else v

/-- Date value after the `"today"` sentinel replacement; `todayStr` is the
current date rendered by `datetime.today().strftime("%Y-%m-%d")`. -/
def dateResolvedValue (todayStr : String) (e b p : Option String)
    (ds : DateSettings) : Option String :=
  let v := dateResolvedRaw e b p ds
  if truthy v then (if v == some "today" then some todayStr else v) else v

/-- Whether the date-format check of `run` emits its (non-fatal) warning:
exactly when a truthy date value fails `strptime`; the value itself is kept. -/
def dateFormatWarning (todayStr : String) (e b p : Option String)
    (ds : DateSettings) : Bool :=
  match dateResolvedValue todayStr e b p ds with
  | none => false
  | some s => !(s == "") && (strptimeYMD s).isNone

/-- Author precedence chain plus substitution, with the `"config"` sentinel
pulling the Sphinx-level `config.author` (`run`). -/
def authorResolvedValue (configAuthor : Option String) (e b p : Option String)
    (aset : AuthorSettings) : Option String :=
  let v := pyOr (pyOr e b) p
  if !(truthy v) then
    (if aset.substitute_missing then
      (if aset.default_author == "config" then configAuthor
       else some aset.default_author)
     else v)
  else v

/-- `_copyright_from_authoryear`: compose `© <year> <author>` from the resolved
author and date, degrading to author-only or year-only.  The year is obtained
by an unguarded `datetime.strptime(date_value, "%Y-%m-%d")`; a parse failure is
a raised `ValueError`, modelled as `.error`. -/
def copyright_from_authoryear (authorValue dateValue : Option String) :
    Except Unit (Option String) :=
  if truthy authorValue && truthy dateValue then
    match strptimeYMD (dateValue.getD "") with
    | some (y, _, _) => .ok (some ("© " ++ toString y ++ " " ++ authorValue.getD ""))
    | none => .error ()
  else if truthy authorValue then .ok (some ("© " ++ authorValue.getD ""))
  else if truthy dateValue then
    match strptimeYMD (dateValue.getD "") with
    | some (y, _, _) => .ok (some ("© " ++ toString y))
    | none => .error ()
  else .ok none

/-- `_resolve_copyright`: dispatch on the configured strategy; any other string
is used as a literal value. -/
def resolve_copyright (defaultCopyright : String) (authorValue dateValue : Option String)
    (configCopyright : Option String) : Except Unit (Option String) :=
  if defaultCopyright == "authoryear" then
    copyright_from_authoryear authorValue dateValue
  else if defaultCopyright == "config" then .ok configCopyright
  else if defaultCopyright == "authoryear-config" then
    match copyright_from_authoryear authorValue dateValue with
    | .error e => .error e
    | .ok v => .ok (if truthy v then v else configCopyright)
  else if defaultCopyright == "config-authoryear" then
    if truthy configCopyright then .ok configCopyright
    else copyright_from_authoryear authorValue dateValue
  else .ok (some defaultCopyright)

/-- Copyright precedence chain plus substitution (`run`): the substitution layer
runs `_resolve_copyright` on the already-resolved author and date values. -/
def copyrightResolvedValue (configCopyright : Option String)
    (authorValue dateValue : Option String) (e b p : Option String)
    (cs : CopyrightSettings) : Except Unit (Option String) :=
  let v := pyOr (pyOr e b) p
  if !(truthy v) then
    (if cs.substitute_missing then
      resolve_copyright cs.default_copyright authorValue dateValue configCopyright
     else .ok v)
  else .ok v

/-- Source precedence chain (`run`): no substitution layer exists for `source`. -/
def sourceResolvedRaw (e b p : Option String) : Option String :=
  pyOr (pyOr e b) p

/-- Whether the missing-source warning fires (`run`: `if source_value is None`,
an identity test, not a truthiness test). -/
def sourceMissingWarning (e b p : Option String) (ss : SourceSettings) : Bool :=
  (sourceResolvedRaw e b p).isNone && ss.warn_missing

/-! ### Theorems: license registry (C3) -/

/-- The five entries of the URL table that are not recognized licenses. -/
def urlOnlyLicenses : List String :=
  ["GPL-2.0", "LGPL-2.1", "LGPL-3.0", "AGPL-3.0", "BSD-2-Clause"]

/-- The recognized licenses that have no canonical URL. -/
def nonURLRecognizedLicenses : List String :=
  ["Proprietary", "All Rights Reserved"]

/-- C3 counterexample: `"GPL-2.0"` is a key of the canonical-URL table but is
not in the recognized-license list, so the claimed invariant (every key of the
URL table is a recognized license) fails. -/
theorem url_table_key_not_recognized :
    "GPL-2.0" ∈ licenseURLKeys ∧ "GPL-2.0" ∉ VALID_LICENSES := by
  decide

/-- C3 (amended): the recognized-license list is exactly the key set of the
canonical-URL table — except for the five URL-table keys `GPL-2.0`,
`LGPL-2.1`, `LGPL-3.0`, `AGPL-3.0` and `BSD-2-Clause`, which are not
recognized — plus the two fixed non-URL licenses `Proprietary` and
`All Rights Reserved`. -/
theorem valid_licenses_vs_url_table (k : String) :
    k ∈ VALID_LICENSES ↔
      ((k ∈ licenseURLKeys ∧ k ∉ urlOnlyLicenses) ∨ k ∈ nonURLRecognizedLicenses) := by
  constructor
  · intro h
    have H : ∀ x ∈ VALID_LICENSES,
        (x ∈ licenseURLKeys ∧ x ∉ urlOnlyLicenses) ∨ x ∈ nonURLRecognizedLicenses := by
      decide
    exact H k h
  · rintro (⟨h1, h2⟩ | h1)
    · have H : ∀ x ∈ licenseURLKeys, x ∉ urlOnlyLicenses → x ∈ VALID_LICENSES := by
        decide
      exact H k h1 h2
    · have H : ∀ x ∈ nonURLRecognizedLicenses, x ∈ VALID_LICENSES := by decide
      exact H k h1

/-! ### Theorems: resolution precedence (C1) -/


/-- Helper: a three-layer Python `or` chain followed by an optional fourth layer
realizes the first-truthy choice. -/
theorem chain_firstTruthy_cases (e b p l4 : Option String) (v : String)
    (h : firstTruthy [e, b, p, l4] = some v) :
    (truthy (pyOr (pyOr e b) p) = true ∧ pyOr (pyOr e b) p = some v) ∨
    (truthy (pyOr (pyOr e b) p) = false ∧ l4 = some v) := by
  by_cases he : truthy e
  · have hc : pyOr (pyOr e b) p = e := by simp [pyOr, he]
    have h' : e = some v := by simpa [firstTruthy, he] using h
    exact Or.inl ⟨by rw [hc]; exact he, by rw [hc]; exact h'⟩
  · by_cases hb : truthy b
    · have hc : pyOr (pyOr e b) p = b := by simp [pyOr, he, hb]
      have h' : b = some v := by simpa [firstTruthy, he, hb] using h
      exact Or.inl ⟨by rw [hc]; exact hb, by rw [hc]; exact h'⟩
    · have hc : pyOr (pyOr e b) p = p := by simp [pyOr, he, hb]
      by_cases hp : truthy p
      · have h' : p = some v := by simpa [firstTruthy, he, hb, hp] using h
        exact Or.inl ⟨by rw [hc]; exact hp, by rw [hc]; exact h'⟩
      · have ht : truthy (pyOr (pyOr e b) p) = false := by
          rw [hc]; simpa using hp
        have h' : (if truthy l4 then l4 else none) = some v := by
          simpa [firstTruthy, he, hb, hp] using h
        refine Or.inr ⟨ht, ?_⟩
        by_cases hl : truthy l4
        · simpa [hl] using h'
        · simp [hl] at h'

/-- Helper: when no layer of a three-layer chain is truthy, the chain value is
falsy. -/
theorem chain_none_cases (e b p : Option String)
    (h : firstTruthy [e, b, p] = none) :
    truthy (pyOr (pyOr e b) p) = false := by
  by_cases he : truthy e
  · simp [firstTruthy, he] at h
    simp [h, truthy] at he
  · by_cases hb : truthy b
    · simp [firstTruthy, he, hb] at h
      simp [h, truthy] at hb
    · by_cases hp : truthy p
      · simp [firstTruthy, he, hb, hp] at h
        simp [h, truthy] at hp
      · simp [pyOr, he, hb]
        simpa using hp

/-- C1: for every metadata field, the resolved value is the first non-empty
value in the order explicit option, bibliography value, page default, then
(license/author/date/copyright only) the configured substitution default; a
non-empty value at a higher layer wins regardless of lower layers.  For
`copyright` the substitution layer is the configured strategy's result, and
`source` has no substitution layer at all. -/
theorem resolution_precedence_first_nonempty
    (configAuthor configCopyright authorValue dateValue : Option String)
    (e b p : Option String) (ls : LicenseSettings) (ds : DateSettings)
    (aset : AuthorSettings) (cs : CopyrightSettings) (v : String) :
    (firstTruthy [e, b, p,
        if ls.substitute_missing then some ls.default_license else none] = some v →
      licenseResolvedRaw e b p ls = some v) ∧
    (firstTruthy [e, b, p,
        if ds.substitute_missing then some ds.default_date else none] = some v →
      dateResolvedRaw e b p ds = some v) ∧
    (firstTruthy [e, b, p,
        if aset.substitute_missing then
          (if aset.default_author == "config" then configAuthor
           else some aset.default_author)
        else none] = some v →
      authorResolvedValue configAuthor e b p aset = some v) ∧
    (firstTruthy [e, b, p] = some v →
      copyrightResolvedValue configCopyright authorValue dateValue e b p cs =
        .ok (some v)) ∧
    (firstTruthy [e, b, p] = none → cs.substitute_missing = true →
      copyrightResolvedValue configCopyright authorValue dateValue e b p cs =
        resolve_copyright cs.default_copyright authorValue dateValue configCopyright) ∧
    (firstTruthy [e, b, p] = some v → sourceResolvedRaw e b p = some v) := by
  refine ⟨?_, ?_, ?_, ?_, ?_, ?_⟩
  · intro h
    rcases chain_firstTruthy_cases _ _ _ _ _ h with ⟨ht, hv⟩ | ⟨ht, hv⟩
    · have hv' : truthy (some v) = true := by rw [← hv]; exact ht
      simp [licenseResolvedRaw, hv, hv']
    · rcases hs : ls.substitute_missing with _ | _
      · simp [hs] at hv
      · simp [hs] at hv
        simp [licenseResolvedRaw, ht, hs, hv]
  · intro h
    rcases chain_firstTruthy_cases _ _ _ _ _ h with ⟨ht, hv⟩ | ⟨ht, hv⟩
    · have hv' : truthy (some v) = true := by rw [← hv]; exact ht
      simp [dateResolvedRaw, hv, hv']
    · rcases hs : ds.substitute_missing with _ | _
      · simp [hs] at hv
      · simp [hs] at hv
        simp [dateResolvedRaw, ht, hs, hv]
  · intro h
    rcases chain_firstTruthy_cases _ _ _ _ _ h with ⟨ht, hv⟩ | ⟨ht, hv⟩
    · have hv' : truthy (some v) = true := by rw [← hv]; exact ht
      simp [authorResolvedValue, hv, hv']
    · rcases hs : aset.substitute_missing with _ | _
      · simp [hs] at hv
      · simp [hs] at hv
        simp [authorResolvedValue, ht, hs]
        exact hv
  · intro h
    have h4 : firstTruthy [e, b, p, none] = some v := by
      simpa [firstTruthy, truthy] using h
    rcases chain_firstTruthy_cases _ _ _ _ _ h4 with ⟨ht, hv⟩ | ⟨_, hv⟩
    · have hv' : truthy (some v) = true := by rw [← hv]; exact ht
      simp [copyrightResolvedValue, hv, hv']
    · exact absurd hv (by simp)
  · intro h hs
    have ht := chain_none_cases _ _ _ h
    simp [copyrightResolvedValue, ht, hs]
  · intro h
    have h4 : firstTruthy [e, b, p, none] = some v := by
      simpa [firstTruthy, truthy] using h
    rcases chain_firstTruthy_cases _ _ _ _ _ h4 with ⟨_, hv⟩ | ⟨_, hv⟩
    · simpa [sourceResolvedRaw] using hv
    · exact absurd hv (by simp)

/-- C1 witness: concrete instances of every conjunct of
`resolution_precedence_first_nonempty` — an explicit option beating a
bibliography value, a bibliography value beating a page default, a page
default beating substitution, and the substitution layer itself. -/
theorem resolution_precedence_witness :
    licenseResolvedRaw (some "CC0") (some "MIT") (some "CC BY")
      { substitute_missing := true } = some "CC0" ∧
    dateResolvedRaw none (some "2020-01-02") (some "1999-01-01") {} =
      some "2020-01-02" ∧
    authorResolvedValue (some "Cfg Author") none none (some "Page Author")
      { substitute_missing := true } = some "Page Author" ∧
    copyrightResolvedValue (some "cfg") (some "A") (some "2020-01-02")
      (some "© 2024 Jane") none none {} = .ok (some "© 2024 Jane") ∧
    copyrightResolvedValue (some "cfg") (some "A") (some "2020-01-02")
      none none none { substitute_missing := true, default_copyright := "config" } =
      resolve_copyright "config" (some "A") (some "2020-01-02") (some "cfg") ∧
    sourceResolvedRaw none none (some "http://x.test") = some "http://x.test" := by
  refine ⟨?_, ?_, ?_, ?_, ?_, ?_⟩
  · exact (resolution_precedence_first_nonempty none none none none
      (some "CC0") (some "MIT") (some "CC BY") { substitute_missing := true } {}
      {} {} "CC0").1 (by decide)
  · exact (resolution_precedence_first_nonempty none none none none
      none (some "2020-01-02") (some "1999-01-01") {} {} {} {}
      "2020-01-02").2.1 (by decide)
  · exact (resolution_precedence_first_nonempty (some "Cfg Author") none none none
      none none (some "Page Author") {} {} { substitute_missing := true } {}
      "Page Author").2.2.1 (by decide)
  · exact (resolution_precedence_first_nonempty none (some "cfg") (some "A")
      (some "2020-01-02") (some "© 2024 Jane") none none {} {} {} {}
      "© 2024 Jane").2.2.2.1 (by decide)
  · exact (resolution_precedence_first_nonempty none (some "cfg") (some "A")
      (some "2020-01-02") none none none {} {} {}
      { substitute_missing := true, default_copyright := "config" }
      "").2.2.2.2.1 (by decide) (by decide)
  · exact (resolution_precedence_first_nonempty none none none none
      none none (some "http://x.test") {} {} {} {}
      "http://x.test").2.2.2.2.2 (by decide)

/-! ### Theorems: license validation (C4) -/

/-- C4: the license validation step raises a hard error if and only if
strict-check mode is on and the resolved (post-substitution, post-untranslate)
license is absent or unrecognized; with strict-check off, the same two
conditions warn exactly in individual mode — with the distinct `missing` and
`unrecognized` messages — and are silent otherwise; a recognized license is
always silent; and on every non-error path the resolved value is retained
unchanged. -/
theorem license_validation_threeway (umap : List (String × String))
    (e b p : Option String) (ls : LicenseSettings) :
    ((∃ err, licenseValidation umap e b p ls = .error err) ↔
      (ls.strict_check = true ∧
        (licenseResolvedValue umap e b p ls = none ∨
         ∃ s, licenseResolvedValue umap e b p ls = some s ∧ s ∉ VALID_LICENSES))) ∧
    (ls.strict_check = false → ls.individual = true →
      licenseResolvedValue umap e b p ls = none →
      licenseValidation umap e b p ls = .ok (none, some .missing)) ∧
    (∀ s, ls.strict_check = false → ls.individual = true →
      licenseResolvedValue umap e b p ls = some s → s ∉ VALID_LICENSES →
      licenseValidation umap e b p ls = .ok (some s, some (.unrecognized s))) ∧
    (ls.strict_check = false → ls.individual = false →
      licenseValidation umap e b p ls =
        .ok (licenseResolvedValue umap e b p ls, none)) ∧
    (∀ s, licenseResolvedValue umap e b p ls = some s → s ∈ VALID_LICENSES →
      licenseValidation umap e b p ls =
        .ok (some s, none)) ∧
    (∀ r w, licenseValidation umap e b p ls = .ok (r, w) →
      r = licenseResolvedValue umap e b p ls) := by
  rcases hV : licenseResolvedValue umap e b p ls with _ | s
  · rcases hstrict : ls.strict_check with _ | _ <;>
      rcases hind : ls.individual with _ | _ <;>
        simp [licenseValidation, hV, hstrict, hind]
  · by_cases hm : s ∈ VALID_LICENSES
    · have hc : VALID_LICENSES.contains s = true := List.elem_iff.mpr hm
      rcases hstrict : ls.strict_check with _ | _ <;>
        simp [licenseValidation, hV, hstrict, hc, hm]
    · have hc : VALID_LICENSES.contains s = false := by
        rcases h : VALID_LICENSES.contains s with _ | _
        · rfl
        · exact absurd (List.elem_iff.mp h) hm
      rcases hstrict : ls.strict_check with _ | _ <;>
        rcases hind : ls.individual with _ | _ <;>
          simp [licenseValidation, hV, hstrict, hind, hc, hm]

/-- C4 witness: concrete instances — a strict-mode hard error on a missing
license, an individual-mode warning on the unrecognized license `"Foo"` with
the value retained, silence on the recognized explicit license `"CC-BY"`, and
silence outside strict/individual modes. -/
theorem license_validation_witness :
    (∃ err, licenseValidation [] none none none
      { strict_check := true } = .error err) ∧
    licenseValidation [] (some "Foo") none none
      { individual := true } = .ok (some "Foo", some (.unrecognized "Foo")) ∧
    licenseValidation [] (some "CC-BY") none none {} = .ok (some "CC-BY", none) ∧
    licenseValidation [] (some "Foo") none none {} = .ok (some "Foo", none) := by
  refine ⟨?_, ?_, ?_, ?_⟩
  · exact (license_validation_threeway [] none none none
      { strict_check := true }).1.mpr ⟨rfl, Or.inl (by decide)⟩
  · exact (license_validation_threeway [] (some "Foo") none none
      { individual := true }).2.2.1 "Foo" rfl rfl (by decide) (by decide)
  · exact (license_validation_threeway [] (some "CC-BY") none none
      {}).2.2.2.2.1 "CC-BY" (by decide) (by decide)
  · exact (license_validation_threeway [] (some "Foo") none none
      {}).2.2.2.1 rfl rfl

/-! ### Theorems: unguarded date parse in copyright substitution (C10) -/

/-- C10: the date step keeps a malformed non-empty date after only a warning,
and the `authoryear` copyright strategy (directly, via `authoryear-config`, or
via `config-authoryear` when the config copyright is falsy) then calls the
date parser unguarded on it, raising an unhandled `ValueError` that aborts the
figure's processing; the composed substitution step in `run` propagates the
error.  No strict-mode flag appears anywhere on this path. -/
theorem copyright_authoryear_unguarded_date
    (aV : Option String) (s : String) (cfgC : Option String)
    (e b p : Option String) (cs : CopyrightSettings)
    (hs : s ≠ "") (hp : strptimeYMD s = none) :
    (∀ todayStr e' b' p' ds, dateResolvedValue todayStr e' b' p' ds = some s →
      dateFormatWarning todayStr e' b' p' ds = true) ∧
    copyright_from_authoryear aV (some s) = .error () ∧
    resolve_copyright "authoryear" aV (some s) cfgC = .error () ∧
    resolve_copyright "authoryear-config" aV (some s) cfgC = .error () ∧
    (truthy cfgC = false →
      resolve_copyright "config-authoryear" aV (some s) cfgC = .error ()) ∧
    (firstTruthy [e, b, p] = none → cs.substitute_missing = true →
      cs.default_copyright = "authoryear" →
      copyrightResolvedValue cfgC aV (some s) e b p cs = .error ()) := by
  have hts : truthy (some s) = true := by simp [truthy, hs]
  have herr : copyright_from_authoryear aV (some s) = .error () := by
    by_cases ha : truthy aV
    · simp [copyright_from_authoryear, ha, hts, hp]
    · simp [copyright_from_authoryear, ha, hts, hp]
  refine ⟨?_, herr, ?_, ?_, ?_, ?_⟩
  · intro todayStr e' b' p' ds hV
    simp [dateFormatWarning, hV, hs, hp]
  · simp [resolve_copyright, herr]
  · simp [resolve_copyright, herr]
  · intro hc
    simp [resolve_copyright, hc, herr]
  · intro hchain hsub hdef
    have ht := chain_none_cases _ _ _ hchain
    simp [copyrightResolvedValue, ht, hsub, hdef, resolve_copyright, herr]

/-- C10 witness: the malformed date `"January 2020"` (kept by the date step
with a warning) makes the `authoryear` substitution raise. -/
theorem copyright_authoryear_unguarded_date_witness :
    dateFormatWarning "2026-10-12" (some "January 2020") none none {} = true ∧
    copyrightResolvedValue none (some "Jane Doe") (some "January 2020")
      none none none
      { substitute_missing := true, default_copyright := "authoryear" } =
      .error () := by
  constructor
  · exact (copyright_authoryear_unguarded_date (some "Jane Doe") "January 2020"
      none none none none
      { substitute_missing := true, default_copyright := "authoryear" }
      (by decide) (by decide)).1 "2026-10-12" (some "January 2020") none none {}
      (by decide)
  · exact (copyright_authoryear_unguarded_date (some "Jane Doe") "January 2020"
      none none none none
      { substitute_missing := true, default_copyright := "authoryear" }
      (by decide) (by decide)).2.2.2.2.2 (by decide) rfl rfl

/-! ### Attribution renderer (`_build_attribution_display`) -/

/-- The metadata keys stored on a figure node by `run` (a key is present
exactly when the corresponding value was truthy), together with the two
caption-state attributes `run` always/conditionally sets. -/
structure FigureNode where
  author : Option String := none
  license : Option String := none
  date : Option String := none
  copyright : Option String := none
  source : Option String := none
  unnumbered_caption : Bool := true
  original_caption : Bool := false

/-- One display part: its text plus an optional hyperlink (text, target). -/
abbrev DisplayPart := String × Option (String × String)

/-- The admonition block built for `admonition`/`margin` placement: CSS
classes, a title, and the body paragraph's children. -/
inductive InlineNode where
  | text (s : String)
  | ref (text url : String)
deriving DecidableEq, Repr

/-- A rendered admonition block. -/
structure AdmonNode where
  classes : List String
  title : String
  body : List InlineNode
deriving DecidableEq, Repr

/-- The renderer's dynamic return value: the `caption` branch returns a raw
HTML string, every other branch a (possibly empty) list of nodes. -/
inductive RenderOut where
  | nodesOut (l : List AdmonNode)
  | htmlOut (s : String)
deriving DecidableEq, Repr

/-- Author display part (`_build_attribution_display`). -/
def buildPartAuthor (tr : String → String) (fig : FigureNode)
    (showList : List String) : List DisplayPart :=
  match fig.author with
  | some a => if showList.contains "author" then [(tr "Author" ++ ": " ++ a, none)] else []
  | none => []

/-- The single license display part appended when the license is present and
shown: hyperlinked when `link_license` is set and the node's license value is
a key of `LICENSE_URLS`. -/
def licensePartOne (tr : String → String) (lv : String) (link_license : Bool) :
    DisplayPart :=
  match (if link_license then licenseURLOf lv else none) with
  | some u => (tr "License" ++ ": ", some (lv, u))
  | none => (tr "License" ++ ": " ++ lv, none)

/-- License display part (`_build_attribution_display`). -/
def buildPartLicense (tr : String → String) (fig : FigureNode)
    (showList : List String) (link_license : Bool) : List DisplayPart :=
  match fig.license with
  | some lv =>
    if showList.contains "license" then [licensePartOne tr lv link_license] else []
  | none => []

/-- Date display part. -/
def buildPartDate (tr : String → String) (fig : FigureNode)
    (showList : List String) : List DisplayPart :=
  match fig.date with
  | some d => if showList.contains "date" then [(tr "Date" ++ ": " ++ d, none)] else []
  | none => []

/-- Copyright display part. -/
def buildPartCopyright (tr : String → String) (fig : FigureNode)
    (showList : List String) : List DisplayPart :=
  match fig.copyright with
  | some c => if showList.contains "copyright" then [(tr "Copyright" ++ ": " ++ c, none)] else []
  | none => []

/-- Python `source.split("](")`, specialized: text before the first `](` and,
when the delimiter occurs, the rest after it. -/
def splitBrackParen : List Char → List Char × Option (List Char)
  | [] => ([], none)
  | ']' :: '(' :: rest => ([], some rest)
  | c :: rest =>
    let r := splitBrackParen rest
    (c :: r.1, r.2)

/-- Whether a character list contains the `](` delimiter. -/
def hasBrackParen (l : List Char) : Bool := (splitBrackParen l).2.isSome

/-- Python `str.lstrip("[")`. -/
def lstripBrack (l : List Char) : List Char := l.dropWhile (fun c => c == '[')

/-- Python `str.rstrip(")")`. -/
def rstripParen (l : List Char) : List Char :=
  (l.reverse.dropWhile (fun c => c == ')')).reverse

/-- The single source display part appended when the source is present and
shown: URL sources and markdown-link sources (exactly one `](` delimiter,
i.e. `len(source.split("](")) == 2`) become hyperlinks, everything else plain
text. -/
def sourcePartOne (tr : String → String) (sv : String) : DisplayPart :=
  if startsWithL "http".data sv.data then
    (tr "Source" ++ ": ", some (sv, sv))
  else
    match splitBrackParen sv.data with
    | (a, some rest) =>
      if hasBrackParen rest then (tr "Source" ++ ": " ++ sv, none)
      else
        (tr "Source" ++ ": ",
          some (String.mk (lstripBrack a), String.mk (rstripParen rest)))
    | (_, none) => (tr "Source" ++ ": " ++ sv, none)

/-- Source display part (`_build_attribution_display`). -/
def buildPartSource (tr : String → String) (fig : FigureNode)
    (showList : List String) : List DisplayPart :=
  match fig.source with
  | some sv =>
    if showList.contains "source" then [sourcePartOne tr sv] else []
  | none => []

/-- All display parts, in the renderer's fixed field order. -/
def buildParts (tr : String → String) (fig : FigureNode)
    (showList : List String) (link_license : Bool) : List DisplayPart :=
  buildPartAuthor tr fig showList ++
  buildPartLicense tr fig showList link_license ++
  buildPartDate tr fig showList ++
  buildPartCopyright tr fig showList ++
  buildPartSource tr fig showList

/-- HTML for one display part (caption placement). -/
def partHTMLOne (pt : DisplayPart) : String :=
  pt.1 ++
    (match pt.2 with
     | some (t, u) =>
       "<a href=\"" ++ u ++ "\" target=\"_blank\" rel=\"noopener\">" ++ t ++ "</a>"
     | none => "")

/-- HTML for a part list with the ` | ` separator before every part but the
first. -/
def partsHTML : List DisplayPart → String
  | [] => ""
  | [x] => partHTMLOne x
  | x :: y :: rest => partHTMLOne x ++ " | " ++ partsHTML (y :: rest)

/-- Body-paragraph children for one display part. -/
def partBodyOne (pt : DisplayPart) : List InlineNode :=
  .text pt.1 :: (match pt.2 with | some (t, u) => [.ref t u] | none => [])

/-- Body-paragraph children for a part list with ` | ` text separators. -/
def partsBody : List DisplayPart → List InlineNode
  | [] => []
  | [x] => partBodyOne x
  | x :: y :: rest => partBodyOne x ++ .text " | " :: partsBody (y :: rest)

/-- `_build_attribution_display`: empty output for `hide`, empty output when
no part was produced, a raw HTML string for `caption` placement (with a
leading `<br>` when the figure carries a numbered caption or a preserved
original caption), and a one-element admonition list otherwise (`margin`
additionally tags the block with a `margin` class). -/
def build_attribution_display (tr : String → String) (fig : FigureNode)
    (placement : String) (showList : List String) (title : String)
    (admonitionClass : String) (link_license : Bool) : RenderOut :=
  if placement == "hide" then .nodesOut []
  else
    let parts := buildParts tr fig showList link_license
    if parts.isEmpty then .nodesOut []
    else if placement == "caption" then
      let html := "<span class=\"figure-metadata\">" ++ partsHTML parts ++ "</span>"
      let html :=
        if !fig.unnumbered_caption then "<br>" ++ html
        else if fig.original_caption then "<br>" ++ html
        else html
      .htmlOut html
    else
      .nodesOut [{ classes :=
                     if placement == "margin" then [admonitionClass, "margin"]
                     else [admonitionClass],
                   title := title,
                   body := partsBody parts }]

/-! ### Theorems: display normalization vs stored value (C2) -/

/-- C2 counterexample: for explicit license `CC-BY` (identity translation,
empty untranslate map) the untranslated canonical value is `"CC-BY"`, but the
value stored on the figure node is the display-normalized `"CC BY 4.0"` — and
it is that stored, normalized value the renderer feeds to the canonical-URL
lookup.  The claim that the stored/lookup value is the un-normalized
untranslated value is therefore false. -/
theorem license_stored_not_canonical :
    licenseResolvedValue [] (some "CC-BY") none none {} = some "CC-BY" ∧
    licenseStoredValue (fun s => s) [] (some "CC-BY") none none {} =
      some "CC BY 4.0" ∧
    ("CC BY 4.0" : String) ≠ "CC-BY" ∧
    buildPartLicense (fun s => s) { license := some "CC BY 4.0" } ["license"] true =
      [("License: ",
        some ("CC BY 4.0", "https://creativecommons.org/licenses/by/4.0/"))] := by
  decide

/-- C2 (amended): display normalization is applied to the value that `run`
stores on the figure node — the stored value is the normalized display form of
the untranslated value, and the renderer's canonical-URL lookup is keyed by
that stored node value — while the validation outcome is determined by the
un-normalized untranslated value alone. -/
theorem license_display_normalization_scope (tr : String → String)
    (umap : List (String × String)) (e b p : Option String) (ls : LicenseSettings) :
    (∀ s, licenseResolvedValue umap e b p ls = some s → s ≠ "" →
      licenseStoredValue tr umap e b p ls = some (licenseDisplayValue tr s)) ∧
    (∀ s, licenseResolvedValue umap e b p ls = some s →
      ((∃ err, licenseValidation umap e b p ls = .error err) ↔
        (ls.strict_check = true ∧ s ∉ VALID_LICENSES))) ∧
    (∀ fig : FigureNode, ∀ lv u, fig.license = some lv → licenseURLOf lv = some u →
      buildPartLicense tr fig ["license"] true =
        [(tr "License" ++ ": ", some (lv, u))]) := by
  refine ⟨?_, ?_, ?_⟩
  · intro s hV hs
    simp [licenseStoredValue, hV, truthy, hs]
  · intro s hV
    by_cases hm : s ∈ VALID_LICENSES
    · have hc : VALID_LICENSES.contains s = true := List.elem_iff.mpr hm
      simp [licenseValidation, hV, hc, hm]
    · have hc : VALID_LICENSES.contains s = false := by
        rcases h : VALID_LICENSES.contains s with _ | _
        · rfl
        · exact absurd (List.elem_iff.mp h) hm
      rcases hstrict : ls.strict_check with _ | _ <;>
        simp [licenseValidation, hV, hstrict, hc, hm]
  · intro fig lv u hfig hurl
    simp [buildPartLicense, licensePartOne, hfig, hurl]

/-- C2 witness for the amended theorem, at explicit license `CC-BY` with
identity translation and empty untranslate map. -/
theorem license_display_normalization_scope_witness :
    licenseStoredValue (fun s => s) [] (some "CC-BY") none none {} =
      some (licenseDisplayValue (fun s => s) "CC-BY") ∧
    ((∃ err, licenseValidation [] (some "CC-BY") none none {} = .error err) ↔
      ((({} : LicenseSettings)).strict_check = true ∧ "CC-BY" ∉ VALID_LICENSES)) ∧
    buildPartLicense (fun s => s)
      { license := some "CC BY 4.0" } ["license"] true =
      [((fun s => s) "License" ++ ": ",
        some ("CC BY 4.0", "https://creativecommons.org/licenses/by/4.0/"))] := by
  refine ⟨?_, ?_, ?_⟩
  · exact (license_display_normalization_scope (fun s => s) [] (some "CC-BY")
      none none {}).1 "CC-BY" (by decide) (by decide)
  · exact (license_display_normalization_scope (fun s => s) [] (some "CC-BY")
      none none {}).2.1 "CC-BY" (by decide)
  · exact (license_display_normalization_scope (fun s => s) [] (some "CC-BY")
      none none {}).2.2 { license := some "CC BY 4.0" } "CC BY 4.0"
      "https://creativecommons.org/licenses/by/4.0/" rfl (by decide)

/-! ### Theorems: renderer emptiness (C9) -/

/-- Specification-side predicate: no record field is both present on the node
and listed in `show`. -/
def noFieldShown (fig : FigureNode) (showList : List String) : Prop :=
  (fig.author = none ∨ "author" ∉ showList) ∧
  (fig.license = none ∨ "license" ∉ showList) ∧
  (fig.date = none ∨ "date" ∉ showList) ∧
  (fig.copyright = none ∨ "copyright" ∉ showList) ∧
  (fig.source = none ∨ "source" ∉ showList)

/-- Empty renderer output: the empty node list, or an empty HTML string. -/
def isEmptyOutput : RenderOut → Prop
  | .nodesOut l => l = []
  | .htmlOut s => s = ""

/-- Helper: a field's contribution is empty iff the field is absent or not
listed in `show`. -/
theorem field_part_eq_nil (present : Option String) (key : String)
    (showList : List String) (mk : String → List DisplayPart)
    (hmk : ∀ v, mk v ≠ []) :
    (match present with
      | some v => if showList.contains key then mk v else []
      | none => []) = [] ↔ (present = none ∨ key ∉ showList) := by
  cases present with
  | none => simp
  | some v =>
    by_cases hm : key ∈ showList
    · have hc : showList.contains key = true := List.elem_iff.mpr hm
      simp [hc, hm, hmk v]
    · have hc : showList.contains key = false := by
        rcases h : showList.contains key with _ | _
        · rfl
        · exact absurd (List.elem_iff.mp h) hm
      simp [hc, hm]

/-- Helper: the renderer's part list is empty iff no field is present and
shown. -/
theorem buildParts_eq_nil (tr : String → String) (fig : FigureNode)
    (showList : List String) (ll : Bool) :
    buildParts tr fig showList ll = [] ↔ noFieldShown fig showList := by
  have ha := field_part_eq_nil fig.author "author" showList
    (fun v => [(tr "Author" ++ ": " ++ v, none)]) (by intro v; simp)
  have hl := field_part_eq_nil fig.license "license" showList
    (fun v => [licensePartOne tr v ll]) (by intro v; simp)
  have hd := field_part_eq_nil fig.date "date" showList
    (fun v => [(tr "Date" ++ ": " ++ v, none)]) (by intro v; simp)
  have hc := field_part_eq_nil fig.copyright "copyright" showList
    (fun v => [(tr "Copyright" ++ ": " ++ v, none)]) (by intro v; simp)
  have hs := field_part_eq_nil fig.source "source" showList
    (fun v => [sourcePartOne tr v]) (by intro v; simp)
  unfold buildParts buildPartAuthor buildPartLicense buildPartDate
    buildPartCopyright buildPartSource noFieldShown
  rw [List.append_eq_nil, List.append_eq_nil, List.append_eq_nil,
    List.append_eq_nil]
  constructor
  · rintro ⟨⟨⟨⟨h1, h2⟩, h3⟩, h4⟩, h5⟩
    exact ⟨ha.mp h1, hl.mp h2, hd.mp h3, hc.mp h4, hs.mp h5⟩
  · rintro ⟨h1, h2, h3, h4, h5⟩
    exact ⟨⟨⟨⟨ha.mpr h1, hl.mpr h2⟩, hd.mpr h3⟩, hc.mpr h4⟩, hs.mpr h5⟩

/-- Helper: the body paragraph built from a non-empty part list is non-empty. -/
theorem partsBody_ne_nil (parts : List DisplayPart) (h : parts ≠ []) :
    partsBody parts ≠ [] := by
  match parts with
  | [] => exact absurd rfl h
  | [x] =>
    show partBodyOne x ≠ []
    simp [partBodyOne]
  | x :: y :: rest =>
    show partBodyOne x ++ _ ≠ []
    simp [partBodyOne]

/-- C9: the attribution renderer returns empty output exactly when placement is
`hide` (whatever the other inputs) or when no record field is both present and
listed in `show`; in every other case the output is non-empty, and no empty
container is emitted — a caption output is a non-empty HTML string and an
admonition output is a single block with a non-empty body. -/
theorem attribution_empty_iff (tr : String → String) (fig : FigureNode)
    (placement : String) (showList : List String) (title admonClass : String)
    (ll : Bool) :
    (isEmptyOutput
        (build_attribution_display tr fig placement showList title admonClass ll) ↔
      (placement = "hide" ∨ noFieldShown fig showList)) ∧
    (placement ≠ "hide" → ¬ noFieldShown fig showList →
      (match build_attribution_display tr fig placement showList title admonClass ll with
        | .htmlOut s => s ≠ ""
        | .nodesOut l => l ≠ [] ∧ ∀ a ∈ l, a.body ≠ [])) := by
  by_cases hhide : placement = "hide"
  · constructor
    · rw [hhide]
      simp [build_attribution_display, isEmptyOutput]
    · intro hne
      exact absurd hhide hne
  · have hbe : (placement == "hide") = false := by
      simp [hhide]
    by_cases hparts : buildParts tr fig showList ll = []
    · have hnfs : noFieldShown fig showList := (buildParts_eq_nil _ _ _ _).mp hparts
      constructor
      · simp [build_attribution_display, hbe, hparts, isEmptyOutput, hnfs]
      · intro _ hn
        exact absurd hnfs hn
    · have hnfs : ¬ noFieldShown fig showList := fun hn =>
        hparts ((buildParts_eq_nil _ _ _ _).mpr hn)
      have hpe : (buildParts tr fig showList ll).isEmpty = false := by
        simpa [List.isEmpty_iff] using hparts
      have hcore : ∀ pre : String,
          pre ++ ("<span class=\"figure-metadata\">" ++
            partsHTML (buildParts tr fig showList ll) ++ "</span>") ≠ "" := by
        intro pre h
        have h2 := congrArg String.length h
        simp only [String.length_append] at h2
        have e1 : String.length "" = 0 := by decide
        have e2 : String.length "</span>" = 7 := by decide
        omega
      by_cases hcap : placement = "caption"
      · have hbc : (placement == "caption") = true := by simp [hcap]
        by_cases h1 : fig.unnumbered_caption
        · by_cases h2 : fig.original_caption
          · have hout :
                build_attribution_display tr fig placement showList title admonClass ll =
                  .htmlOut ("<br>" ++ ("<span class=\"figure-metadata\">" ++
                    partsHTML (buildParts tr fig showList ll) ++ "</span>")) := by
              simp [build_attribution_display, hbe, hpe, hbc, h1, h2]
            rw [hout]
            exact ⟨by simp [isEmptyOutput, hcore "<br>", hhide, hnfs],
              fun _ _ => hcore "<br>"⟩
          · have hout :
                build_attribution_display tr fig placement showList title admonClass ll =
                  .htmlOut ("<span class=\"figure-metadata\">" ++
                    partsHTML (buildParts tr fig showList ll) ++ "</span>") := by
              simp [build_attribution_display, hbe, hpe, hbc, h1, h2]
            rw [hout]
            have hne := hcore ""
            rw [String.empty_append] at hne
            exact ⟨by simp [isEmptyOutput, hne, hhide, hnfs], fun _ _ => hne⟩
        · have hout :
              build_attribution_display tr fig placement showList title admonClass ll =
                .htmlOut ("<br>" ++ ("<span class=\"figure-metadata\">" ++
                  partsHTML (buildParts tr fig showList ll) ++ "</span>")) := by
            simp [build_attribution_display, hbe, hpe, hbc, h1]
          rw [hout]
          exact ⟨by simp [isEmptyOutput, hcore "<br>", hhide, hnfs],
            fun _ _ => hcore "<br>"⟩
      · have hbc : (placement == "caption") = false := by simp [hcap]
        have hout :
            build_attribution_display tr fig placement showList title admonClass ll =
              .nodesOut [{ classes :=
                             if placement == "margin" then [admonClass, "margin"]
                             else [admonClass],
                           title := title,
                           body := partsBody (buildParts tr fig showList ll) }] := by
          simp [build_attribution_display, hbe, hpe, hbc]
        rw [hout]
        constructor
        · simp [isEmptyOutput, hhide, hnfs]
        · intro _ _
          refine ⟨by simp, ?_⟩
          intro a ha
          simp at ha
          rw [ha]
          exact partsBody_ne_nil _ hparts

/-- C9 witness: concrete instances — `hide` with a fully populated node yields
empty output; a populated node with empty `show` yields empty output; an
`admonition` placement with a shown author yields a non-empty block. -/
theorem attribution_empty_iff_witness :
    (isEmptyOutput (build_attribution_display (fun s => s)
        { author := some "A", license := some "MIT", date := some "2020-01-01",
          copyright := some "C", source := some "http://x.test" }
        "hide" ["author", "license", "date", "copyright", "source"]
        "Attribution" "attribution" true) ↔
      (("hide" : String) = "hide" ∨
        noFieldShown
          { author := some "A", license := some "MIT", date := some "2020-01-01",
            copyright := some "C", source := some "http://x.test" }
          ["author", "license", "date", "copyright", "source"])) ∧
    (isEmptyOutput (build_attribution_display (fun s => s)
        { author := some "A" } "admonition" [] "Attribution" "attribution" true) ↔
      (("admonition" : String) = "hide" ∨
        noFieldShown { author := some "A" } [])) ∧
    (match build_attribution_display (fun s => s) { author := some "A" }
        "admonition" ["author"] "Attribution" "attribution" true with
      | .htmlOut s => s ≠ ""
      | .nodesOut l => l ≠ [] ∧ ∀ a ∈ l, a.body ≠ []) := by
  refine ⟨?_, ?_, ?_⟩
  · exact (attribution_empty_iff (fun s => s)
      { author := some "A", license := some "MIT", date := some "2020-01-01",
        copyright := some "C", source := some "http://x.test" }
      "hide" ["author", "license", "date", "copyright", "source"]
      "Attribution" "attribution" true).1
  · exact (attribution_empty_iff (fun s => s) { author := some "A" }
      "admonition" [] "Attribution" "attribution" true).1
  · exact (attribution_empty_iff (fun s => s) { author := some "A" }
      "admonition" ["author"] "Attribution" "attribution" true).2
      (by decide) (by simp [noFieldShown])

/-! ### Theorems: markdown-link source rendering (C6) -/

/-- C6: a source value that does not start with `http` and contains exactly one
`](` delimiter (the markdown-link form, `len(split) == 2`) is split at that
first delimiter into link text (leading `[` stripped) and URL (trailing `)`
stripped), and the renderer emits a `Source: ` label with that hyperlink. -/
theorem source_markdown_link_split (tr : String → String) (sv : String)
    (a rest : List Char)
    (hh : startsWithL "http".data sv.data = false)
    (hsplit : splitBrackParen sv.data = (a, some rest))
    (hone : hasBrackParen rest = false) :
    sourcePartOne tr sv =
      (tr "Source" ++ ": ",
        some (String.mk (lstripBrack a), String.mk (rstripParen rest))) ∧
    (∀ fig : FigureNode, fig.source = some sv →
      buildPartSource tr fig ["source"] =
        [(tr "Source" ++ ": ",
          some (String.mk (lstripBrack a), String.mk (rstripParen rest)))]) := by
  have hp : sourcePartOne tr sv =
      (tr "Source" ++ ": ",
        some (String.mk (lstripBrack a), String.mk (rstripParen rest))) := by
    simp [sourcePartOne, hh, hsplit, hone]
  refine ⟨hp, ?_⟩
  intro fig hfig
  simp [buildPartSource, hfig, hp]

/-- C6 witness: the spec scenario `[My Site](http://example.test/page)` yields
link text `My Site` and target `http://example.test/page`. -/
theorem source_markdown_link_witness :
    sourcePartOne (fun s => s) "[My Site](http://example.test/page)" =
      ("Source: ", some ("My Site", "http://example.test/page")) ∧
    buildPartSource (fun s => s)
      { source := some "[My Site](http://example.test/page)" } ["source"] =
      [("Source: ", some ("My Site", "http://example.test/page"))] := by
  have h := source_markdown_link_split (fun s => s)
    "[My Site](http://example.test/page)"
    "[My Site".data "http://example.test/page)".data
    (by decide) (by decide) (by decide)
  constructor
  · rw [h.1]
    decide
  · rw [h.2 { source := some "[My Site](http://example.test/page)" } rfl]
    decide

/-! ### BibTeX field-value helpers (`_strip_surrounding_braces`) -/

/-- Python `str.replace(c, "")`: remove every occurrence of a one-character
needle. -/
def pyRemoveChar (c : Char) (l : List Char) : List Char :=
  l.filter (fun x => !(x == c))

/-- Python `str.strip()` (whitespace strip at both ends). -/
def pyStrip (s : String) : String :=
  String.mk (((s.data.dropWhile isSpaceChar).reverse.dropWhile isSpaceChar).reverse)

/-- Python `str.split()` with no argument: split on whitespace runs, dropping
empty pieces (`acc` is the current word, reversed). -/
def splitWsAux : List Char → List Char → List (List Char)
  | [], acc => if acc.isEmpty then [] else [acc.reverse]
  | c :: rest, acc =>
    if isSpaceChar c then
      (if acc.isEmpty then splitWsAux rest [] else acc.reverse :: splitWsAux rest [])
    else splitWsAux rest (c :: acc)

/-- Python `str.split()`. -/
def splitWs (l : List Char) : List (List Char) := splitWsAux l []

/-- Python `" ".join(words)`. -/
def joinSp : List (List Char) → List Char
  | [] => []
  | [w] => w
  | w :: x :: rest => w ++ ' ' :: joinSp (x :: rest)

/-- `_strip_surrounding_braces`: `None`/empty values are returned as given;
otherwise all `\x7b` and `\x7d` characters are removed (first the opening then
the closing braces, via two `str.replace` calls) and whitespace is collapsed
via `" ".join(result.split())`. -/
def strip_surrounding_braces : Option String → Option String
  | none => none
  | some s =>
    if s == "" then some s
    else some (String.mk (joinSp (splitWs (pyRemoveChar '\x7d' (pyRemoveChar '\x7b' s.data)))))

mutual

/-- Specification-side single-pass whitespace collapse: drop leading whitespace,
emit each word, and put exactly one space between words. -/
def collapseRun : List Char → List Char
  | [] => []
  | c :: rest => if isSpaceChar c then collapseRun rest else c :: collapseWord rest

/-- Companion of `collapseRun` for positions inside a word. -/
def collapseWord : List Char → List Char
  | [] => []
  | c :: rest =>
    if isSpaceChar c then
      (let r := collapseRun rest
       if r.isEmpty then [] else ' ' :: r)
    else c :: collapseWord rest

end

/-! ### BibTeX entry and field scanners (`_parse_bib_entry`) -/

/-- Split a leading maximal `\w*` run from a character list. -/
def munchWordSplit : List Char → List Char × List Char
  | [] => ([], [])
  | c :: rest =>
    if isWordChar c then
      let p := munchWordSplit rest
      (c :: p.1, p.2)
    else ([], c :: rest)

/-- Consume a leading maximal `\s*` run. -/
def munchWs : List Char → List Char
  | [] => []
  | c :: rest => if isSpaceChar c then munchWs rest else c :: rest

/-- Match a literal key case-insensitively (the effect of `re.IGNORECASE` on
the `re.escape(key)` part of the patterns), returning the remainder. -/
def matchKeyCI : List Char → List Char → Option (List Char)
  | [], s => some s
  | _ :: _, [] => none
  | k :: ks, c :: cs =>
    if lowerChar k == lowerChar c then matchKeyCI ks cs else none

/-- Match `\s*` then the literal key, trying every whitespace split (the
backtracking of a greedy `\s*` before a literal; any successful split
witnesses a match). -/
def wsThenKey (key : List Char) : List Char → Option (List Char)
  | [] => matchKeyCI key []
  | c :: rest =>
    match matchKeyCI key (c :: rest) with
    | some r => some r
    | none => if isSpaceChar c then wsThenKey key rest else none

/-- Match `\s*,` (as a final pattern piece). -/
def wsThenComma : List Char → Bool
  | [] => false
  | c :: rest =>
    if c == ',' then true else (if isSpaceChar c then wsThenComma rest else false)

/-- Match `\s*,` returning the remainder after the comma. -/
def wsThenCommaRem : List Char → Option (List Char)
  | [] => none
  | c :: rest =>
    if c == ',' then some rest
    else (if isSpaceChar c then wsThenCommaRem rest else none)

/-- Match the shared entry-opening pattern `@\w+\s*\{\s*key` at the head of the
input, returning the remainder after the key. -/
def matchKeyHead (key : List Char) (s : List Char) : Option (List Char) :=
  match s with
  | '@' :: r =>
    let p := munchWordSplit r
    if p.1.isEmpty then none
    else
      match munchWs p.2 with
      | '\x7b' :: r3 => wsThenKey key r3
      | _ => none
  | _ => none

/-- Whether `\}\s*(?=@|\Z)` can close the entry here (the text after the brace
is whitespace followed by `@` or the end of input). -/
def closeOk (rest : List Char) : Bool :=
  match munchWs rest with
  | [] => true
  | '@' :: _ => true
  | _ => false

/-- The lazy capture `([^@]*?)` of the entry pattern: at each position first
try to close with `\}\s*(?=@|\Z)`, else consume one non-`@` character. -/
def captureBody : List Char → Option (List Char)
  | [] => none
  | c :: rest =>
    if c == '\x7d' && closeOk rest then some []
    else if c == '@' then none
    else (captureBody rest).map (fun l => c :: l)

/-- Try the whole entry pattern
`@\w+\s*\{\s*key\s*,([^@]*?)\}\s*(?=@|\Z)` at the head of the input,
returning the captured entry body. -/
def matchEntryAt (key : List Char) (s : List Char) : Option (List Char) :=
  match matchKeyHead key s with
  | some r =>
    match wsThenCommaRem r with
    | some r2 => captureBody r2
    | none => none
  | none => none

/-- `re.search` for the entry pattern: leftmost matching start position. -/
def findEntry (key : List Char) : List Char → Option (List Char)
  | [] => none
  | c :: rest =>
    match matchEntryAt key (c :: rest) with
    | some cap => some cap
    | none => findEntry key rest

/-- Quoted field value `"([^"]*)"`: capture up to the closing quote. -/
def parseQuote : List Char → Option (List Char × List Char)
  | [] => none
  | c :: rest =>
    if c == '"' then some ([], rest)
    else (parseQuote rest).map (fun p => (c :: p.1, p.2))

/-- Braced field value `([^{}]*(?:\{[^{}]*\}[^{}]*)*)` followed by `\}`: one
level of nested braces is allowed (and captured verbatim); a second level
makes the alternative fail.  The flag records being inside a nested group. -/
def parseBraceAux : Bool → List Char → Option (List Char × List Char)
  | _, [] => none
  | false, c :: rest =>
    if c == '\x7d' then some ([], rest)
    else if c == '\x7b' then (parseBraceAux true rest).map (fun p => (c :: p.1, p.2))
    else (parseBraceAux false rest).map (fun p => (c :: p.1, p.2))
  | true, c :: rest =>
    if c == '\x7d' then (parseBraceAux false rest).map (fun p => (c :: p.1, p.2))
    else if c == '\x7b' then none
    else (parseBraceAux true rest).map (fun p => (c :: p.1, p.2))

/-- Python `field_value.strip()` applied only to truthy values
(`if field_value: field_value = field_value.strip()`). -/
def stripIfTruthy : Option String → Option String
  | none => none
  | some s => if s == "" then some s else some (pyStrip s)

/-- Try the field pattern `(\w+)\s*=\s*(?:\{...\}|"...")` at the head of the
input.  Returns the lowercased field name, the value of
`match.group(2) or match.group(3)` (an empty brace capture yields `None`),
and the remainder after the match. -/
def matchFieldAt (s : List Char) : Option (List Char × Option String × List Char) :=
  let p := munchWordSplit s
  if p.1.isEmpty then none
  else
    match munchWs p.2 with
    | '=' :: r3 =>
      (match munchWs r3 with
       | '\x7b' :: r5 =>
         match parseBraceAux false r5 with
         | some (v, after) =>
           some (lowerL p.1, (if v.isEmpty then none else some (String.mk v)), after)
         | none => none
       | '"' :: r5 =>
         match parseQuote r5 with
         | some (v, after) => some (lowerL p.1, some (String.mk v), after)
         | none => none
       | _ => none)
    | _ => none

/-- `re.finditer` over the field pattern: scan left to right, resuming after
each match; values get the `strip()` treatment of the source's loop.  The
fuel is the input length (every step consumes at least one character). -/
def findFieldsAux : Nat → List Char → List (List Char × Option String)
  | 0, _ => []
  | _ + 1, [] => []
  | n + 1, c :: rest =>
    match matchFieldAt (c :: rest) with
    | some (nm, v, after) => (nm, stripIfTruthy v) :: findFieldsAux n after
    | none => findFieldsAux n rest

/-- All `field = value` pairs of an entry body, in order. -/
def findFields (l : List Char) : List (List Char × Option String) :=
  findFieldsAux l.length l

/-- Greedy `[^}]+` followed by `\}`: capture everything up to the first `\x7d`,
requiring at least one character. -/
def captureToBrace (l : List Char) : Option (List Char) :=
  let v := l.takeWhile (fun c => !(c == '\x7d'))
  match l.dropWhile (fun c => !(c == '\x7d')) with
  | '\x7d' :: _ => if v.isEmpty then none else some v
  | _ => none

/-- Try `\\url\{([^}]+)\}` at the head of the input. -/
def matchUrlAt : List Char → Option (List Char)
  | '\\' :: 'u' :: 'r' :: 'l' :: '\x7b' :: r => captureToBrace r
  | _ => none

/-- `re.search(r"\\url\{([^}]+)\}", value)`: leftmost match's capture. -/
def findUrlEsc : List Char → Option (List Char)
  | [] => none
  | c :: rest =>
    match matchUrlAt (c :: rest) with
    | some cap => some cap
    | none => findUrlEsc rest

/-- The `\s*(.+)` tail of `License:\s*(.+)` (no DOTALL): munch whitespace
greedily; if a character follows it is non-whitespace, so `(.+)` captures the
rest of that line; at end of input the greedy `\s*` backtracks one character,
which satisfies `(.+)` only if it is not a newline. -/
def noteLicenseCapture (r : List Char) : Option (List Char) :=
  match munchWs r with
  | c :: rest => some ((c :: rest).takeWhile (fun x => !(x == '\n')))
  | [] =>
    match r.reverse with
    | c :: _ => if c == '\n' then none else some [c]
    | [] => none

/-- `re.search(r"License:\s*(.+)", value, re.IGNORECASE)`: leftmost occurrence
of `License:` (case-insensitive) whose tail admits a capture. -/
def findNoteLicense : List Char → Option (List Char)
  | [] => none
  | c :: rest =>
    match matchKeyCI "License:".data (c :: rest) with
    | some r =>
      (match noteLicenseCapture r with
       | some cap => some cap
       | none => findNoteLicense rest)
    | none => findNoteLicense rest

/-! ### BibTeX field mapping (`_parse_bib_entry` field loop) -/

/-- The partial metadata record built from a bibliography entry.  The outer
`Option` is key presence in the Python dict; the inner `Option String` is the
stored value, which the source can set to `None` (e.g. from an empty brace
capture). -/
structure BibMeta where
  author : Option (Option String) := none
  date : Option (Option String) := none
  source : Option (Option String) := none
  license : Option (Option String) := none
  copyright : Option (Option String) := none
deriving DecidableEq, Repr

/-- Python f-string interpolation of a possibly-`None` value. -/
def pyFString : Option String → String
  | none => "None"
  | some s => s

/-- One iteration of the field loop of `_parse_bib_entry`.  `howpublished` and
`note` run `re.search` on the value, which raises a `TypeError` when the value
is `None` — modelled as `.error`. -/
def metaStep (m : BibMeta) (f : List Char × Option String) :
    Except Unit BibMeta :=
  if f.1 == "author".data then
    .ok { m with author := some (strip_surrounding_braces f.2) }
  else if f.1 == "year".data then
    (if m.date == none then
      .ok { m with date := some (some (pyFString f.2 ++ "-01-01")) }
     else .ok m)
  else if f.1 == "date".data then .ok { m with date := some f.2 }
  else if f.1 == "url".data then .ok { m with source := some f.2 }
  else if f.1 == "howpublished".data then
    (match f.2 with
     | none => .error ()
     | some sv =>
       match findUrlEsc sv.data with
       | some cap => .ok { m with source := some (some (String.mk cap)) }
       | none =>
         if m.source == none then .ok { m with source := some (some sv) }
         else .ok m)
  else if f.1 == "note".data then
    (match f.2 with
     | none => .error ()
     | some sv =>
       match findNoteLicense sv.data with
       | some cap =>
         .ok { m with license := some (some (pyStrip (String.mk cap))) }
       | none => .ok m)
  else if f.1 == "copyright".data then .ok { m with copyright := some f.2 }
  else .ok m

/-- The field loop of `_parse_bib_entry`. -/
def processFields : BibMeta → List (List Char × Option String) → Except Unit BibMeta
  | m, [] => .ok m
  | m, f :: fs =>
    match metaStep m f with
    | .ok m2 => processFields m2 fs
    | .error e => .error e

/-- `_parse_bib_entry`: locate the entry for the key, extract its fields, run
the field loop, and return the metadata (or `None` when the key is not found
or the dict stayed empty). -/
def parse_bib_entry (bibContent key : String) : Except Unit (Option BibMeta) :=
  match findEntry key.data bibContent.data with
  | none => .ok none
  | some entry =>
    match processFields {} (findFields entry) with
    | .error e => .error e
    | .ok m => .ok (if m = ({} : BibMeta) then none else some m)

/-! ### Theorems: bibliography year/date precedence (C7) -/

/-- Specification-side: value of the last `date` field of a field list. -/
def lastDateVal : List (List Char × Option String) → Option (Option String)
  | [] => none
  | f :: fs =>
    match lastDateVal fs with
    | some v => some v
    | none => if f.1 == "date".data then some f.2 else none

/-- Specification-side: value of the first `year` field of a field list. -/
def firstYearVal : List (List Char × Option String) → Option (Option String)
  | [] => none
  | f :: fs => if f.1 == "year".data then some f.2 else firstYearVal fs

/-- Specification-side: the final date slot after the field loop, given the
initial date slot `d0`. -/
def dateSpecFrom (d0 : Option (Option String))
    (fs : List (List Char × Option String)) : Option (Option String) :=
  match lastDateVal fs with
  | some v => some v
  | none =>
    match firstYearVal fs with
    | some yv => if d0 = none then some (some (pyFString yv ++ "-01-01")) else d0
    | none => d0

/-- Unfolding rule for `dateSpecFrom` over a leading field. -/
theorem dateSpecFrom_cons (d0 : Option (Option String))
    (f : List Char × Option String) (fs : List (List Char × Option String)) :
    dateSpecFrom d0 (f :: fs) =
      (if f.1 == "date".data then dateSpecFrom (some f.2) fs
       else if f.1 == "year".data then
         (if d0 = none then
            dateSpecFrom (some (some (pyFString f.2 ++ "-01-01"))) fs
          else dateSpecFrom d0 fs)
       else dateSpecFrom d0 fs) := by
  by_cases hd : f.1 == "date".data
  · rcases hl : lastDateVal fs with _ | v
    · rcases hy : firstYearVal fs with _ | yv <;>
        simp [dateSpecFrom, lastDateVal, hd, hl, hy]
    · simp [dateSpecFrom, lastDateVal, hd, hl]
  · by_cases hyf : f.1 == "year".data
    · rcases hl : lastDateVal fs with _ | v
      · rcases hy : firstYearVal fs with _ | yv
        · rcases hd0 : d0 with _ | w <;>
            simp [dateSpecFrom, lastDateVal, firstYearVal, hd, hyf, hl, hy]
        · rcases hd0 : d0 with _ | w <;>
            simp [dateSpecFrom, lastDateVal, firstYearVal, hd, hyf, hl, hy]
      · simp [dateSpecFrom, lastDateVal, firstYearVal, hd, hyf, hl]
    · rcases hl : lastDateVal fs with _ | v <;>
        rcases hy : firstYearVal fs with _ | yv <;>
          simp [dateSpecFrom, lastDateVal, firstYearVal, hd, hyf, hl, hy]

/-- A `date` field always overwrites the date slot. -/
theorem metaStep_date_of_date (m0 m2 : BibMeta) (f : List Char × Option String)
    (hd : (f.1 == "date".data) = true) (h : metaStep m0 f = .ok m2) :
    m2.date = some f.2 := by
  simp [metaStep, eq_of_beq hd] at h
  rw [← h]

/-- A `year` field sets the date slot only when it is still absent. -/
theorem metaStep_date_of_year (m0 m2 : BibMeta) (f : List Char × Option String)
    (hy : (f.1 == "year".data) = true) (h : metaStep m0 f = .ok m2) :
    m2.date = (if m0.date = none then some (some (pyFString f.2 ++ "-01-01"))
               else m0.date) := by
  simp only [metaStep, eq_of_beq hy] at h
  rcases hd0 : m0.date with _ | w <;> rw [hd0] at h <;> simp at h <;> rw [← h]
  · simp
  · simp [hd0]

/-- No field other than `date` and `year` touches the date slot. -/
theorem metaStep_date_of_other (m0 m2 : BibMeta) (f : List Char × Option String)
    (hd : (f.1 == "date".data) = false) (hy : (f.1 == "year".data) = false)
    (h : metaStep m0 f = .ok m2) : m2.date = m0.date := by
  simp only [metaStep, hd, hy, Bool.false_eq_true, if_false] at h
  split at h
  · cases h
    rfl
  · split at h
    · cases h
      rfl
    · split at h
      · split at h
        · exact absurd h (by simp)
        · split at h
          · cases h
            rfl
          · split at h
            · cases h
              rfl
            · cases h
              rfl
      · split at h
        · split at h
          · exact absurd h (by simp)
          · split at h
            · cases h
              rfl
            · cases h
              rfl
        · split at h
          · cases h
            rfl
          · cases h
            rfl

/-- The field loop's date slot follows `dateSpecFrom`. -/
theorem processFields_date_aux (fs : List (List Char × Option String)) :
    ∀ m0 m, processFields m0 fs = .ok m → m.date = dateSpecFrom m0.date fs := by
  induction fs with
  | nil =>
    intro m0 m h
    simp only [processFields] at h
    cases h
    simp [dateSpecFrom, lastDateVal, firstYearVal]
  | cons f fs ih =>
    intro m0 m h
    simp only [processFields] at h
    rcases hstep : metaStep m0 f with e | m2 <;> rw [hstep] at h
    · exact absurd h (by simp)
    · have ih' := ih m2 m h
      rw [dateSpecFrom_cons]
      by_cases hdf : f.1 == "date".data
      · rw [hdf, if_pos rfl]
        rw [metaStep_date_of_date m0 m2 f hdf hstep] at ih'
        exact ih'
      · have hdf' : (f.1 == "date".data) = false := by simpa using hdf
        by_cases hyf : f.1 == "year".data
        · rw [hdf', hyf]
          simp only [Bool.false_eq_true, if_false, if_true]
          rw [metaStep_date_of_year m0 m2 f hyf hstep] at ih'
          rcases hd0 : m0.date with _ | w
          · rw [if_pos rfl]
            rw [hd0, if_pos rfl] at ih'
            exact ih'
          · rw [if_neg (by simp)]
            rw [hd0, if_neg (by simp)] at ih'
            exact ih'
        · have hyf' : (f.1 == "year".data) = false := by simpa using hyf
          rw [hdf', hyf']
          simp only [Bool.false_eq_true, if_false]
          rw [metaStep_date_of_other m0 m2 f hdf' hyf' hstep] at ih'
          exact ih'

/-- The spec scenario's bibliography content:
`@misc{k, author={Jane Doe}, year={2020}, url={http://x.test}}`. -/
def bibScenarioContent : String :=
  "@misc\x7bk,\n  author = \x7bJane Doe\x7d,\n  year = \x7b2020\x7d,\n  url = \x7bhttp://x.test\x7d\n\x7d\n"

/-- C7: in `_parse_bib_entry`, the final date is the last `date` field's value
copied verbatim whenever any `date` field occurs — regardless of where `year`
fields occur — and otherwise the first `year` field's value suffixed with
`-01-01`; and the scenario entry `@misc{k, author={Jane Doe}, year={2020},
url={http://x.test}}` resolves to author `Jane Doe`, date `2020-01-01`,
source `http://x.test`, and no license. -/
theorem bib_year_date_precedence :
    (∀ fs m, processFields {} fs = .ok m →
      m.date =
        (match lastDateVal fs with
         | some v => some v
         | none =>
           (firstYearVal fs).map (fun yv => some (pyFString yv ++ "-01-01")))) ∧
    parse_bib_entry bibScenarioContent "k" =
      .ok (some { author := some (some "Jane Doe"),
                  date := some (some "2020-01-01"),
                  source := some (some "http://x.test") }) := by
  constructor
  · intro fs m h
    have := processFields_date_aux fs {} m h
    rw [this]
    unfold dateSpecFrom
    rcases hl : lastDateVal fs with _ | v
    · rcases hy : firstYearVal fs with _ | yv <;> simp
    · simp
  · rfl

/-- C7 witness: a `date` field wins over a `year` field even when the `year`
field comes first. -/
theorem bib_year_date_precedence_witness :
    ({ date := some (some "2021-05-05"), author := some (some "A") } : BibMeta).date =
      (match lastDateVal [("year".data, some "2020"), ("author".data, some "A"),
          ("date".data, some "2021-05-05")] with
       | some v => some v
       | none =>
         (firstYearVal [("year".data, some "2020"), ("author".data, some "A"),
             ("date".data, some "2021-05-05")]).map
           (fun yv => some (pyFString yv ++ "-01-01"))) := by
  exact bib_year_date_precedence.1
    [("year".data, some "2020"), ("author".data, some "A"),
     ("date".data, some "2021-05-05")]
    { date := some (some "2021-05-05"), author := some (some "A") }
    (by rfl)

/-! ### Theorems: author brace stripping (C8) -/

/-- `str.split()` never returns an empty list when a word is in progress. -/
theorem splitWsAux_ne_nil (l : List Char) :
    ∀ acc, acc ≠ [] → splitWsAux l acc ≠ [] := by
  induction l with
  | nil =>
    intro acc h
    simp only [splitWsAux]
    rw [if_neg (by simpa using h)]
    simp
  | cons c rest ih =>
    intro acc h
    by_cases hc : isSpaceChar c
    · simp only [splitWsAux, hc, if_true]
      rw [if_neg (by simpa using h)]
      simp
    · simp only [splitWsAux, hc, Bool.false_eq_true, if_false]
      exact ih (c :: acc) (by simp)

/-- `str.split()` is empty exactly when the collapse is empty. -/
theorem splitWsAux_nil_iff (l : List Char) :
    splitWsAux l [] = [] ↔ collapseRun l = [] := by
  induction l with
  | nil => simp [splitWsAux, collapseRun]
  | cons c rest ih =>
    by_cases hc : isSpaceChar c
    · simpa [splitWsAux, collapseRun, hc] using ih
    · simp only [splitWsAux, collapseRun, hc, Bool.false_eq_true, if_false]
      constructor
      · intro h
        exact absurd h (splitWsAux_ne_nil rest [c] (by simp))
      · intro h
        simp at h

/-- `" ".join(l.split())` equals the single-pass whitespace collapse. -/
theorem joinSp_splitWs_eq_collapse (l : List Char) :
    joinSp (splitWsAux l []) = collapseRun l ∧
    ∀ acc, acc ≠ [] → joinSp (splitWsAux l acc) = acc.reverse ++ collapseWord l := by
  induction l with
  | nil =>
    constructor
    · rfl
    · intro acc h
      simp only [splitWsAux]
      rw [if_neg (by simpa using h)]
      simp [joinSp, collapseWord]
  | cons c rest ih =>
    by_cases hc : isSpaceChar c
    · constructor
      · simp only [splitWsAux, hc, if_true, List.isEmpty_nil]
        rw [ih.1]
        simp [collapseRun, hc]
      · intro acc h
        simp only [splitWsAux, hc, if_true]
        rw [if_neg (by simpa using h)]
        simp only [collapseWord, hc, if_true]
        rcases hsp : splitWsAux rest [] with _ | ⟨w, ws⟩
        · have hcr : collapseRun rest = [] := (splitWsAux_nil_iff rest).mp hsp
          simp [joinSp, hcr]
        · have hcr : collapseRun rest ≠ [] := by
            intro hcr
            have := (splitWsAux_nil_iff rest).mpr hcr
            rw [hsp] at this
            exact absurd this (by simp)
          have hj : joinSp (w :: ws) = collapseRun rest := by
            rw [← ih.1, hsp]
          show acc.reverse ++ ' ' :: joinSp (w :: ws) =
            acc.reverse ++ (if (collapseRun rest).isEmpty then [] else ' ' :: collapseRun rest)
          rw [if_neg (by simpa [List.isEmpty_iff] using hcr), hj]
    · constructor
      · simp only [splitWsAux, hc, Bool.false_eq_true, if_false]
        rw [ih.2 [c] (by simp)]
        simp [collapseRun, hc]
      · intro acc h
        simp only [splitWsAux, hc, Bool.false_eq_true, if_false]
        rw [ih.2 (c :: acc) (by simp)]
        simp [collapseWord, hc]

/-- The two sequential one-character `str.replace` calls remove exactly the
brace characters. -/
theorem removeBraces_eq_filter (l : List Char) :
    pyRemoveChar '\x7d' (pyRemoveChar '\x7b' l) =
      l.filter (fun c => !(c == '\x7b') && !(c == '\x7d')) := by
  induction l with
  | nil => rfl
  | cons c rest ih =>
    by_cases h1 : c = '\x7b'
    · subst h1
      simpa [pyRemoveChar, List.filter_cons] using ih
    · by_cases h2 : c = '\x7d'
      · subst h2
        simpa [pyRemoveChar, List.filter_cons] using ih
      · simpa [pyRemoveChar, List.filter_cons, h1, h2] using ih

/-- The scenario bibliography content with a case-protection brace group:
`@misc{k, author = {John {van} Doe}}`. -/
def braceScenarioContent : String :=
  "@misc\x7bk,\n  author = \x7bJohn \x7bvan\x7d Doe\x7d\n\x7d\n"

/-- C8: for every author field value, `_strip_surrounding_braces` returns the
value with every brace character removed and all whitespace runs collapsed to
single spaces with no leading or trailing whitespace (the single-pass
`collapseRun` form); and extracting `author = {John {van} Doe}` through the
full entry/field parse yields exactly `John van Doe`. -/
theorem author_brace_stripping :
    (∀ s : String, strip_surrounding_braces (some s) =
      some (String.mk (collapseRun
        (s.data.filter (fun c => !(c == '\x7b') && !(c == '\x7d')))))) ∧
    parse_bib_entry braceScenarioContent "k" =
      .ok (some { author := some (some "John van Doe") }) := by
  constructor
  · intro s
    by_cases hs : s = ""
    · rw [hs]
      rfl
    · have hbe : (s == "") = false := by simpa using hs
      simp only [strip_surrounding_braces, hbe, Bool.false_eq_true, if_false]
      rw [splitWs, removeBraces_eq_filter,
        (joinSp_splitWs_eq_collapse (s.data.filter
          (fun c => !(c == '\x7b') && !(c == '\x7d')))).1]
  · rfl

/-! ### BibTeX generation and writing (`_generate_bib_entry`, `_write_bib_entry`) -/

/-- The metadata dict passed to `_generate_bib_entry` (built from directive
options; a key is used only when its value is truthy). -/
structure GenMeta where
  author : Option String := none
  license : Option String := none
  date : Option String := none
  copyright : Option String := none
  source : Option String := none

/-- `re.match(r"\[([^\]]+)\]\(([^\)]+)\)", source)`: a markdown link anchored
at the start of the value (trailing text is allowed by `re.match`). -/
def mdLinkMatch (l : List Char) : Option (List Char × List Char) :=
  match l with
  | '[' :: r =>
    let t := r.takeWhile (fun c => !(c == ']'))
    (match r.dropWhile (fun c => !(c == ']')) with
     | ']' :: '(' :: r2 =>
       if t.isEmpty then none
       else
         let u := r2.takeWhile (fun c => !(c == ')'))
         (match r2.dropWhile (fun c => !(c == ')')) with
          | ')' :: _ => if u.isEmpty then none else some (t, u)
          | _ => none)
     | _ => none)
  | _ => none

/-- The `bib_lines` list of `_generate_bib_entry`: the `@misc{key,` opener,
then optional `author`, always a `title`, optional `year`/`date` (year-only
when the date does not parse), source-derived `url`/`howpublished`, a
`License:` note, a `copyright`, and the closing brace. -/
def bibLines (key : String) (md : GenMeta) (imagePath : String)
    (caption : Option String) : List String :=
  ("@misc\x7b" ++ key ++ ",") ::
  ((if truthy md.author then
      ["  author = \x7b" ++ md.author.getD "" ++ "\x7d,"] else []) ++
   ["  title = \x7b" ++
      (if truthy caption then pyStrip (caption.getD "")
       else "Figure: " ++ imagePath) ++ "\x7d,"] ++
   (if truthy md.date then
      (match strptimeYMD (md.date.getD "") with
       | some (y, _, _) =>
         ["  year = \x7b" ++ toString y ++ "\x7d,",
          "  date = \x7b" ++ md.date.getD "" ++ "\x7d,"]
       | none => ["  year = \x7b" ++ md.date.getD "" ++ "\x7d,"])
    else []) ++
   (if truthy md.source then
      (let src := md.source.getD ""
       if startsWithL "http://".data src.data || startsWithL "https://".data src.data then
         ["  url = \x7b" ++ src ++ "\x7d,",
          "  howpublished = \x7b\\url\x7b" ++ src ++ "\x7d\x7d,"]
       else if startsWithL "[".data src.data && hasBrackParen src.data then
         (match mdLinkMatch src.data with
          | some (_, u) =>
            ["  url = \x7b" ++ String.mk u ++ "\x7d,",
             "  howpublished = \x7b\\url\x7b" ++ String.mk u ++ "\x7d\x7d,"]
          | none => [])
       else ["  howpublished = \x7b" ++ src ++ "\x7d,"])
    else []) ++
   (if truthy md.license then
      ["  note = \x7bLicense: " ++ md.license.getD "" ++ "\x7d,"] else []) ++
   (if truthy md.copyright then
      ["  copyright = \x7b" ++ md.copyright.getD "" ++ "\x7d,"] else []) ++
   ["\x7d"])

/-- Python `"\n".join(lines)`. -/
def joinLines : List String → String
  | [] => ""
  | [l] => l
  | l :: l2 :: rest => l ++ "\n" ++ joinLines (l2 :: rest)

/-- `_generate_bib_entry`. -/
def generate_bib_entry (key : String) (md : GenMeta) (imagePath : String)
    (caption : Option String) : String :=
  joinLines (bibLines key md imagePath caption)

/-- Try the dedup pattern `@\w+\s*\{\s*key\s*,` at the head of the input. -/
def matchHereKeyComma (key : List Char) (s : List Char) : Bool :=
  match matchKeyHead key s with
  | some r => wsThenComma r
  | none => false

/-- `re.search` for the dedup pattern: is there a match anywhere? -/
def searchKeyComma (key : List Char) : List Char → Bool
  | [] => false
  | c :: rest => matchHereKeyComma key (c :: rest) || searchKeyComma key rest

/-- The duplicate-key check of `_write_bib_entry`
(`re.search(rf"@\w+\s*\{{\s*{re.escape(bib_key)}\s*,", existing, IGNORECASE)`). -/
def containsBibKey (content key : String) : Bool :=
  searchKeyComma key.data content.data

/-- Python `str.endswith`. -/
def endsWithL (suffix l : List Char) : Bool :=
  startsWithL suffix.reverse l.reverse

/-- The pure content transformation of `_write_bib_entry`: a no-op reporting
success when an entry with the key already exists, otherwise an append with
one blank line of separation; the I/O itself is the host's concern. -/
def write_bib_entry (existing key entry : String) : String × Bool :=
  if containsBibKey existing key then (existing, true)
  else
    let entry2 :=
      if !(existing == "") && !(endsWithL "\n\n".data existing.data) then
        (if endsWithL "\n".data existing.data then "\n" ++ entry
         else "\n\n" ++ entry)
      else entry
    (existing ++ entry2 ++ "\n", true)

/-! ### Theorems: idempotent bibliography writes (C5) -/

/-- A literal key matches itself under the case-insensitive comparison. -/
theorem matchKeyCI_self (key r : List Char) :
    matchKeyCI key (key ++ r) = some r := by
  induction key with
  | nil => rfl
  | cons k ks ih => simp [matchKeyCI, ih]

/-- `\s*key` matches immediately when the input starts with the key itself. -/
theorem wsThenKey_self (key r : List Char) :
    wsThenKey key (key ++ r) = some r := by
  cases key with
  | nil =>
    cases r with
    | nil => rfl
    | cons c cs => simp [wsThenKey, matchKeyCI]
  | cons k ks =>
    have h := matchKeyCI_self (k :: ks) r
    rw [List.cons_append] at h
    simp [wsThenKey, h]

/-- The dedup pattern head matches at the opener of a generated entry. -/
theorem matchKeyHead_gen (key t : List Char) :
    matchKeyHead key
      ('@' :: 'm' :: 'i' :: 's' :: 'c' :: '\x7b' :: (key ++ ',' :: t)) =
      some (',' :: t) := by
  have hsplit : munchWordSplit ('m' :: 'i' :: 's' :: 'c' :: '\x7b' :: (key ++ ',' :: t)) =
      (['m', 'i', 's', 'c'], '\x7b' :: (key ++ ',' :: t)) := by
    have h1 : isWordChar 'm' = true := by decide
    have h2 : isWordChar 'i' = true := by decide
    have h3 : isWordChar 's' = true := by decide
    have h4 : isWordChar 'c' = true := by decide
    have h5 : isWordChar '\x7b' = false := by decide
    simp [munchWordSplit, h1, h2, h3, h4, h5]
  have hws : munchWs ('\x7b' :: (key ++ ',' :: t)) = '\x7b' :: (key ++ ',' :: t) := by
    have h5 : isSpaceChar '\x7b' = false := by decide
    simp [munchWs, h5]
  simp only [matchKeyHead, hsplit, hws]
  simp only [List.isEmpty_cons, Bool.false_eq_true, if_false]
  rw [show key ++ ',' :: t = key ++ (',' :: t) from rfl, wsThenKey_self]

/-- The full dedup pattern matches at the opener of a generated entry. -/
theorem matchHereKeyComma_gen (key t : List Char) :
    matchHereKeyComma key
      ('@' :: 'm' :: 'i' :: 's' :: 'c' :: '\x7b' :: (key ++ ',' :: t)) = true := by
  simp [matchHereKeyComma, matchKeyHead_gen, wsThenComma]

/-- A match anywhere in the appended part is found by the scan. -/
theorem searchKeyComma_append (key a b : List Char)
    (h : matchHereKeyComma key b = true) :
    searchKeyComma key (a ++ b) = true := by
  induction a with
  | nil =>
    cases b with
    | nil => simp [matchHereKeyComma, matchKeyHead] at h
    | cons c cs => simp [searchKeyComma, h]
  | cons x xs ih => simp [searchKeyComma, List.cons_append, ih]

/-- `"\n".join` keeps its first line as a prefix. -/
theorem joinLines_head (x : String) (rest : List String) :
    ∃ t, (joinLines (x :: rest)).data = x.data ++ t := by
  cases rest with
  | nil => exact ⟨[], by simp [joinLines]⟩
  | cons y ys =>
    refine ⟨'\n' :: (joinLines (y :: ys)).data, ?_⟩
    show ((x ++ "\n") ++ joinLines (y :: ys)).data = _
    show (x.data ++ '\n' :: []) ++ (joinLines (y :: ys)).data = _
    simp

/-- A generated entry opens with `@misc{key,`. -/
theorem generate_head (key : String) (md : GenMeta) (imagePath : String)
    (caption : Option String) :
    ∃ t, (generate_bib_entry key md imagePath caption).data =
      '@' :: 'm' :: 'i' :: 's' :: 'c' :: '\x7b' :: (key.data ++ ',' :: t) := by
  obtain ⟨t, ht⟩ := joinLines_head ("@misc\x7b" ++ key ++ ",") (bibLines key md imagePath caption).tail
  refine ⟨t, ?_⟩
  have hgen : generate_bib_entry key md imagePath caption =
      joinLines (("@misc\x7b" ++ key ++ ",") :: (bibLines key md imagePath caption).tail) := by
    rfl
  rw [hgen, ht]
  show ("@misc\x7b".data ++ key.data) ++ ",".data ++ t = _
  simp

/-- C5: the bibliography write is idempotent — when the existing content
already contains an entry opening with the key, the write is a no-op that
reports success; writing the same key twice (with its generated entry) leaves
the content after the second call identical to the content after the first;
and the pure write always reports success. -/
theorem write_bib_idempotent (existing key entry : String) (md : GenMeta)
    (imagePath : String) (caption : Option String) :
    (containsBibKey existing key = true →
      write_bib_entry existing key entry = (existing, true)) ∧
    ((write_bib_entry
        (write_bib_entry existing key
          (generate_bib_entry key md imagePath caption)).1 key
        (generate_bib_entry key md imagePath caption)).1 =
      (write_bib_entry existing key
        (generate_bib_entry key md imagePath caption)).1) ∧
    (write_bib_entry existing key entry).2 = true := by
  have hnoop : ∀ e2 : String, containsBibKey e2 key = true →
      write_bib_entry e2 key (generate_bib_entry key md imagePath caption) =
        (e2, true) := by
    intro e2 h
    simp [write_bib_entry, h]
  refine ⟨?_, ?_, ?_⟩
  · intro h
    simp [write_bib_entry, h]
  · by_cases hc : containsBibKey existing key = true
    · rw [hnoop existing hc]
      rw [hnoop existing hc]
    · have hc' : containsBibKey existing key = false := by
        simpa using hc
      obtain ⟨t, ht⟩ := generate_head key md imagePath caption
      have hmatch : ∀ u : List Char, matchHereKeyComma key.data
          ((generate_bib_entry key md imagePath caption).data ++ u) = true := by
        intro u
        rw [ht]
        have : ('@' :: 'm' :: 'i' :: 's' :: 'c' :: '\x7b' :: (key.data ++ ',' :: t)) ++ u =
            '@' :: 'm' :: 'i' :: 's' :: 'c' :: '\x7b' :: (key.data ++ ',' :: (t ++ u)) := by
          simp
        rw [this]
        exact matchHereKeyComma_gen key.data (t ++ u)
      have hfirst : (write_bib_entry existing key
          (generate_bib_entry key md imagePath caption)).1 =
          existing ++
            (if !(existing == "") && !(endsWithL "\n\n".data existing.data) then
              (if endsWithL "\n".data existing.data then
                "\n" ++ generate_bib_entry key md imagePath caption
               else "\n\n" ++ generate_bib_entry key md imagePath caption)
             else generate_bib_entry key md imagePath caption) ++ "\n" := by
        simp [write_bib_entry, hc']
      have hcontains : containsBibKey (write_bib_entry existing key
          (generate_bib_entry key md imagePath caption)).1 key = true := by
        rw [hfirst]
        by_cases h1 : !(existing == "") && !(endsWithL "\n\n".data existing.data)
        · by_cases h2 : endsWithL "\n".data existing.data
          · rw [if_pos h1, if_pos h2]
            show searchKeyComma key.data
              ((existing ++ ("\n" ++ generate_bib_entry key md imagePath caption)) ++ "\n").data = true
            have hd : ((existing ++ ("\n" ++ generate_bib_entry key md imagePath caption)) ++ "\n").data =
                (existing.data ++ ['\n']) ++
                  ((generate_bib_entry key md imagePath caption).data ++ ['\n']) := by
              show (existing.data ++ ('\n' :: (generate_bib_entry key md imagePath caption).data)) ++ ['\n'] = _
              simp
            rw [hd]
            exact searchKeyComma_append key.data _ _ (hmatch ['\n'])
          · rw [if_pos h1, if_neg h2]
            show searchKeyComma key.data
              ((existing ++ ("\n\n" ++ generate_bib_entry key md imagePath caption)) ++ "\n").data = true
            have hd : ((existing ++ ("\n\n" ++ generate_bib_entry key md imagePath caption)) ++ "\n").data =
                (existing.data ++ ['\n', '\n']) ++
                  ((generate_bib_entry key md imagePath caption).data ++ ['\n']) := by
              show (existing.data ++ ('\n' :: '\n' :: (generate_bib_entry key md imagePath caption).data)) ++ ['\n'] = _
              simp
            rw [hd]
            exact searchKeyComma_append key.data _ _ (hmatch ['\n'])
        · rw [if_neg h1]
          show searchKeyComma key.data
            ((existing ++ generate_bib_entry key md imagePath caption) ++ "\n").data = true
          have hd : ((existing ++ generate_bib_entry key md imagePath caption) ++ "\n").data =
              existing.data ++
                ((generate_bib_entry key md imagePath caption).data ++ ['\n']) := by
            show (existing.data ++ (generate_bib_entry key md imagePath caption).data) ++ ['\n'] = _
            simp
          rw [hd]
          exact searchKeyComma_append key.data _ _ (hmatch ['\n'])
      rw [hnoop _ hcontains]
  · by_cases hc : containsBibKey existing key <;> simp [write_bib_entry, hc]

/-- C5 witness: an existing file already holding `@misc{k,` is left unchanged
(with success reported) by another write of the key `k`. -/
theorem write_bib_idempotent_witness :
    write_bib_entry "@misc\x7bk,\n  title = \x7bT\x7d,\n\x7d\n" "k" "@misc\x7bk,\n\x7d" =
      ("@misc\x7bk,\n  title = \x7bT\x7d,\n\x7d\n", true) := by
  exact (write_bib_idempotent "@misc\x7bk,\n  title = \x7bT\x7d,\n\x7d\n" "k"
    "@misc\x7bk,\n\x7d" {} "i.png" none).1 (by decide)
